import Mathlib

/-!
Verification development for the live-monitoring event-correlation layer of
the crewai-financial-analysis-demo repository.

The Python source (`streamlit_app.py`, `listeners.py`) is shallowly embedded
here: Python dictionaries become association lists, Python values flowing
through event payloads become the inductive type `Value`, and the mutating
registry-update functions become pure functions threading an explicit
`RunState`.  Python's `uuid.uuid4()` is modelled by a fresh counter threaded
through the state (its contract — a fresh identifier on every call — is all
the code relies on).
-/

/-- A Python value as it occurs in event payloads: `None`, booleans, integers,
strings, lists and dicts.  Floats are not modelled (no claim needs them). -/
inductive Value where
  | null : Value
  | bool (b : Bool) : Value
  | num (n : Int) : Value
  | str (s : String) : Value
  | arr (xs : List Value) : Value
  | obj (kvs : List (String × Value)) : Value
deriving Repr

mutual

/-- Structural equality test on `Value` (Python `==` restricted to same-shaped
values; the cross-type Python equalities `0 == False` etc. are modelled
separately where the source relies on them). -/
def beqV : Value → Value → Bool
  | .null, .null => true
  | .bool a, .bool b => a == b
  | .num a, .num b => a == b
  | .str a, .str b => a == b
  | .arr a, .arr b => beqVL a b
  | .obj a, .obj b => beqVKV a b
  | _, _ => false

def beqVL : List Value → List Value → Bool
  | [], [] => true
  | a :: as, b :: bs => beqV a b && beqVL as bs
  | _, _ => false

def beqVKV : List (String × Value) → List (String × Value) → Bool
  | [], [] => true
  | (k, v) :: as, (l, w) :: bs => k == l && beqV v w && beqVKV as bs
  | _, _ => false

end

theorem beqV_iff_aux : ∀ n : Nat,
    (∀ a b : Value, sizeOf a ≤ n → (beqV a b = true ↔ a = b)) ∧
    (∀ as bs : List Value, sizeOf as ≤ n → (beqVL as bs = true ↔ as = bs)) ∧
    (∀ as bs : List (String × Value), sizeOf as ≤ n →
      (beqVKV as bs = true ↔ as = bs)) := by
  intro n
  induction n with
  | zero =>
      refine ⟨fun a b h => ?_, fun as bs h => ?_, fun as bs h => ?_⟩
      · cases a <;> simp_arith at h
      · cases as <;> simp_arith at h
      · cases as <;> simp_arith at h
  | succ n ih =>
      obtain ⟨ihV, ihL, ihKV⟩ := ih
      refine ⟨fun a b h => ?_, fun as bs h => ?_, fun as bs h => ?_⟩
      · cases a <;> cases b <;> simp_all [beqV]
        · exact ihL _ _ (by simp_arith at h ⊢; omega)
        · exact ihKV _ _ (by simp_arith at h ⊢; omega)
      · cases as with
        | nil => cases bs <;> simp [beqVL]
        | cons a as' =>
            cases bs with
            | nil => simp [beqVL]
            | cons b bs' =>
                simp only [beqVL, Bool.and_eq_true, List.cons.injEq]
                constructor
                · rintro ⟨h1, h2⟩
                  exact ⟨(ihV a b (by simp_arith at h ⊢; omega)).mp h1,
                    (ihL as' bs' (by simp_arith at h ⊢; omega)).mp h2⟩
                · rintro ⟨rfl, rfl⟩
                  exact ⟨(ihV a a (by simp_arith at h ⊢; omega)).mpr rfl,
                    (ihL as' as' (by simp_arith at h ⊢; omega)).mpr rfl⟩
      · cases as with
        | nil => cases bs <;> simp [beqVKV]
        | cons kv as' =>
            obtain ⟨k, v⟩ := kv
            cases bs with
            | nil => simp [beqVKV]
            | cons lw bs' =>
                obtain ⟨l, w⟩ := lw
                simp only [beqVKV, Bool.and_eq_true, List.cons.injEq,
                  Prod.mk.injEq, beq_iff_eq]
                constructor
                · rintro ⟨⟨h0, h1⟩, h2⟩
                  exact ⟨⟨h0, (ihV v w (by simp_arith at h ⊢; omega)).mp h1⟩,
                    (ihKV as' bs' (by simp_arith at h ⊢; omega)).mp h2⟩
                · rintro ⟨⟨rfl, rfl⟩, rfl⟩
                  exact ⟨⟨rfl, (ihV v v (by simp_arith at h ⊢; omega)).mpr rfl⟩,
                    (ihKV as' as' (by simp_arith at h ⊢; omega)).mpr rfl⟩

instance : DecidableEq Value := fun a b =>
  decidable_of_iff (beqV a b = true) ((beqV_iff_aux (sizeOf a)).1 a b le_rfl)

/-- Event payload: a Python dict, modelled as an insertion-ordered association
list with unique keys. -/
abbrev EventData := List (String × Value)

/-- `d.get(k)`: Python returns `None` both for a missing key and for a key
stored with value `None`; both are `Value.null` here. -/
def getV (d : EventData) (k : String) : Value :=
  match d.find? (fun kv => kv.1 == k) with
  | some kv => kv.2
  | none => Value.null

/-- Key-presence test (`k in d`), needed where Python distinguishes a missing
key from one stored as `None` (only `dict.setdefault` does). -/
def hasKey (d : EventData) (k : String) : Bool :=
  (d.find? (fun kv => kv.1 == k)).isSome

/-- Python truthiness for `Value`. -/
def truthy : Value → Bool
  | .null => false
  | .bool b => b
  | .num n => n != 0
  | .str s => s != ""
  | .arr xs => !xs.isEmpty
  | .obj kvs => !kvs.isEmpty

/-- Python `a or b` on values (first truthy operand). -/
def pyOr (a b : Value) : Value := if truthy a then a else b

/-- `v in (None, "")` — Python `==` membership against `None` and `""`. -/
def isNoneOrEmptyStr : Value → Bool
  | .null => true
  | .str s => s == ""
  | _ => false

/-- `v in (None, "", 0)` — Python `==` membership; note `False == 0` holds in
Python, so `False` is also a zero value here. -/
def isNoneEmptyOrZero : Value → Bool
  | .null => true
  | .str s => s == ""
  | .num n => n == 0
  | .bool b => b == false
  | _ => false

/-- Python dict update `m[k] = v`: replaces in place, else appends. -/
def ainsert {κ α : Type} [DecidableEq κ] (m : List (κ × α)) (k : κ) (v : α) :
    List (κ × α) :=
  match m with
  | [] => [(k, v)]
  | (k', v') :: rest =>
      if k' = k then (k, v) :: rest else (k', v') :: ainsert rest k v

/-- Python dict lookup `m.get(k)`. -/
def alookup {κ α : Type} [DecidableEq κ] (m : List (κ × α)) (k : κ) : Option α :=
  match m.find? (fun kv => decide (kv.1 = k)) with
  | some kv => some kv.2
  | none => none

/-- Python `del m[k]` / `m.pop(k, None)`: drop the (unique) binding of `k`. -/
def aremove {κ α : Type} [DecidableEq κ] (m : List (κ × α)) (k : κ) :
    List (κ × α) :=
  match m with
  | [] => []
  | (k', v') :: rest =>
      if k' = k then rest else (k', v') :: aremove rest k

/-- The keys of a dict, in insertion order. -/
def akeys {κ α : Type} (m : List (κ × α)) : List κ := m.map Prod.fst

example : getV [("a", .num 1)] "a" = .num 1 := by decide
example : getV [("a", .num 1)] "b" = .null := by decide
example : alookup (ainsert [("a", 1)] "a" 2) "a" = some 2 := by decide
example : alookup (ainsert [("a", 1)] "b" 2) "a" = some 1 := by decide

/-! ## Python string conversion and JSON (models of the stdlib calls) -/

/-- Hex digit for `\uXXXX` escapes. -/
def hexDigit (n : Nat) : Char :=
  if n < 10 then Char.ofNat (48 + n) else Char.ofNat (87 + n)

/-- Four-digit lowercase hex, as CPython's `json` emits in `\uXXXX`. -/
def hex4 (n : Nat) : String :=
  String.mk [hexDigit (n / 4096 % 16), hexDigit (n / 256 % 16),
    hexDigit (n / 16 % 16), hexDigit (n % 16)]

/-- JSON string escaping as `json.dumps` performs it with the default
`ensure_ascii=True`: `"` and `\` are backslash-escaped, control characters
use the short escapes or `\uXXXX`, and non-ASCII characters are emitted as
`\uXXXX` (surrogate pairs above the BMP). -/
def jsonEscapeChar (c : Char) : String :=
  if c = '"' then "\\\""
  else if c = '\\' then "\\\\"
  else if c = '\n' then "\\n"
  else if c = '\t' then "\\t"
  else if c = '\r' then "\\r"
  else if c.toNat = 8 then "\\b"
  else if c.toNat = 12 then "\\f"
  else if c.toNat < 32 then "\\u" ++ hex4 c.toNat
  else if c.toNat < 127 then String.mk [c]
  else if c.toNat < 65536 then "\\u" ++ hex4 c.toNat
  else
    let v := c.toNat - 65536
    "\\u" ++ hex4 (55296 + v / 1024) ++ "\\u" ++ hex4 (56320 + v % 1024)

def jsonQuote (s : String) : String :=
  "\"" ++ String.join (s.toList.map jsonEscapeChar) ++ "\""

/-- Lexicographic code-point order on strings — the comparison Python's
`sorted` uses on `str` keys. -/
def strLtChars : List Char → List Char → Bool
  | [], [] => false
  | [], _ :: _ => true
  | _ :: _, [] => false
  | a :: as, b :: bs =>
      if a.toNat < b.toNat then true
      else if b.toNat < a.toNat then false
      else strLtChars as bs

def strLe (a b : String) : Bool := !(strLtChars b.toList a.toList)

/-! An executable size measure on `Value` (nesting fuel for the fuelled
serialisers; always strictly larger than the nesting depth). -/

mutual

def vsize : Value → Nat
  | .null => 1
  | .bool _ => 1
  | .num _ => 1
  | .str _ => 1
  | .arr xs => 1 + vsizeL xs
  | .obj kvs => 1 + vsizeKV kvs

def vsizeL : List Value → Nat
  | [] => 1
  | v :: vs => 1 + vsize v + vsizeL vs

def vsizeKV : List (String × Value) → Nat
  | [] => 1
  | (_, v) :: kvs => 1 + vsize v + vsizeKV kvs

end

/-- Stable insertion sort by key — models Python's `sorted` (stable,
lexicographic code-point order on strings) as used by
`json.dumps(..., sort_keys=True)`. -/
def insertSortedKV (kv : String × Value) :
    List (String × Value) → List (String × Value)
  | [] => [kv]
  | kv' :: rest =>
      if strLe kv.1 kv'.1 then kv :: kv' :: rest
      else kv' :: insertSortedKV kv rest

def sortKVs : List (String × Value) → List (String × Value)
  | [] => []
  | kv :: rest => insertSortedKV kv (sortKVs rest)

/-- `json.dumps(v, sort_keys=True, default=str)` with the default separators
`", "` and `": "`, fuelled (fuel is always sufficient: every call supplies
`sizeOf v`, which bounds the nesting depth).  `default=str` never fires for
`Value` (all its constructors are JSON-serialisable), so the `repr`
fallback of `_normalise_tool_args` is unreachable in this model. -/
def dumpsFuel : Nat → Value → String
  | 0, _ => ""
  | fuel + 1, v =>
    match v with
    | .null => "null"
    | .bool true => "true"
    | .bool false => "false"
    | .num n => toString n
    | .str s => jsonQuote s
    | .arr xs =>
        "[" ++ String.intercalate ", " (xs.map (dumpsFuel fuel)) ++ "]"
    | .obj kvs =>
        "\x7b" ++ String.intercalate ", "
          ((sortKVs kvs).map
            (fun kv => jsonQuote kv.1 ++ ": " ++ dumpsFuel fuel kv.2)) ++ "\x7d"

def json_dumps_sorted (v : Value) : String := dumpsFuel (vsize v) v

/-- Python `str()` / `repr()` on values, fuelled like `dumpsFuel`.
`pyReprFuel` approximates `repr` (strings single-quoted, containers in
literal syntax); `pyStr` is `str()`: identity on strings, `repr`-style
otherwise (`True`/`False`/`None`, decimal integers). -/
def pyReprFuel : Nat → Value → String
  | 0, _ => ""
  | fuel + 1, v =>
    match v with
    | .null => "None"
    | .bool true => "True"
    | .bool false => "False"
    | .num n => toString n
    | .str s => "'" ++ s ++ "'"
    | .arr xs =>
        "[" ++ String.intercalate ", " (xs.map (pyReprFuel fuel)) ++ "]"
    | .obj kvs =>
        "\x7b" ++ String.intercalate ", "
          (kvs.map (fun kv =>
            "'" ++ kv.1 ++ "': " ++ pyReprFuel fuel kv.2)) ++ "\x7d"

def pyStr : Value → String
  | .str s => s
  | v => pyReprFuel (vsize v) v

/-! A recursive-descent parser modelling `json.loads` on the fragment of JSON
that `Value` covers: `null`, booleans, integers, strings (with the standard
escapes), arrays and objects, with JSON whitespace and a reject of trailing
input.  Floats are outside the model: a number with a fraction or exponent
makes the parse fail (such arguments would then take the raw-string fallback
of `_normalise_tool_args`).  Duplicate object keys keep the last value at the
first key's position, as a Python `dict` does. -/

def isJsonWs (c : Char) : Bool :=
  c = ' ' || c = '\t' || c = '\n' || c = '\r'

def skipWs : List Char → List Char
  | [] => []
  | c :: cs => if isJsonWs c then skipWs cs else c :: cs

def parseDigits : List Char → Option (Nat × List Char)
  | cs =>
    let ds := cs.takeWhile Char.isDigit
    let rest := cs.dropWhile Char.isDigit
    if ds.isEmpty then none
    else some (ds.foldl (fun acc c => acc * 10 + (c.toNat - 48)) 0, rest)

/-- Parse the remainder of a JSON string literal after the opening quote. -/
def parseStringRest : Nat → List Char → Option (String × List Char)
  | 0, _ => none
  | _, [] => none
  | fuel + 1, c :: cs =>
    if c = '"' then some ("", cs)
    else if c = '\\' then
      match cs with
      | [] => none
      | e :: cs' =>
        let cont (decoded : Char) (rest : List Char) :
            Option (String × List Char) :=
          match parseStringRest fuel rest with
          | some (s, r) => some (String.mk [decoded] ++ s, r)
          | none => none
        if e = '"' then cont '"' cs'
        else if e = '\\' then cont '\\' cs'
        else if e = '/' then cont '/' cs'
        else if e = 'n' then cont '\n' cs'
        else if e = 't' then cont '\t' cs'
        else if e = 'r' then cont '\r' cs'
        else if e = 'b' then cont (Char.ofNat 8) cs'
        else if e = 'f' then cont (Char.ofNat 12) cs'
        else if e = 'u' then
          match cs' with
          | h1 :: h2 :: h3 :: h4 :: cs'' =>
            let hv (h : Char) : Option Nat :=
              if h.isDigit then some (h.toNat - 48)
              else if 'a' ≤ h ∧ h ≤ 'f' then some (h.toNat - 87)
              else if 'A' ≤ h ∧ h ≤ 'F' then some (h.toNat - 55)
              else none
            match hv h1, hv h2, hv h3, hv h4 with
            | some a, some b, some c, some d =>
                let n := a * 4096 + b * 256 + c * 16 + d
                if 55296 ≤ n ∧ n < 57344 then none
                else cont (Char.ofNat n) cs''
            | _, _, _, _ => none
          | _ => none
        else none
    else
      match parseStringRest fuel cs with
      | some (s, r) => some (String.mk [c] ++ s, r)
      | none => none

/-- Insert into the association list the way a Python `dict` does on repeated
keys: the value is replaced at the existing position, otherwise appended. -/
def pyDictInsert (m : List (String × Value)) (k : String) (v : Value) :
    List (String × Value) := ainsert m k v

mutual

def parseValue : Nat → List Char → Option (Value × List Char)
  | 0, _ => none
  | fuel + 1, cs =>
    match skipWs cs with
    | 'n' :: 'u' :: 'l' :: 'l' :: rest => some (.null, rest)
    | 't' :: 'r' :: 'u' :: 'e' :: rest => some (.bool true, rest)
    | 'f' :: 'a' :: 'l' :: 's' :: 'e' :: rest => some (.bool false, rest)
    | '"' :: rest =>
        match parseStringRest (rest.length + 1) rest with
        | some (s, r) => some (.str s, r)
        | none => none
    | '[' :: rest =>
        (match skipWs rest with
         | ']' :: r => some (.arr [], r)
         | r =>
            match parseElems fuel r with
            | some (xs, r') => some (.arr xs, r')
            | none => none)
    | '-' :: rest =>
        (match parseDigits rest with
         | some (n, r) =>
            (match r with
             | c :: _ =>
                if c = '.' ∨ c = 'e' ∨ c = 'E' then none
                else some (.num (-(n : Int)), r)
             | [] => some (.num (-(n : Int)), r))
         | none => none)
    | c :: rest =>
        if c = Char.ofNat 123 then
          match skipWs rest with
          | r =>
            if r.head? = some (Char.ofNat 125) then
              some (.obj [], r.tail)
            else
              match parseMembers fuel r with
              | some (kvs, r') => some (.obj kvs, r')
              | none => none
        else if c.isDigit then
          match parseDigits (c :: rest) with
          | some (n, r) =>
              (match r with
               | c' :: _ =>
                  if c' = '.' ∨ c' = 'e' ∨ c' = 'E' then none
                  else some (.num (n : Int), r)
               | [] => some (.num (n : Int), r))
          | none => none
        else none
    | [] => none

def parseElems : Nat → List Char → Option (List Value × List Char)
  | 0, _ => none
  | fuel + 1, cs =>
    match parseValue fuel cs with
    | some (v, r) =>
      (match skipWs r with
       | ',' :: r' =>
          (match parseElems fuel r' with
           | some (vs, r'') => some (v :: vs, r'')
           | none => none)
       | ']' :: r' => some ([v], r')
       | _ => none)
    | none => none

def parseMembers : Nat → List Char → Option (List (String × Value) × List Char)
  | 0, _ => none
  | fuel + 1, cs =>
    match skipWs cs with
    | '"' :: rest =>
      (match parseStringRest (rest.length + 1) rest with
       | some (k, r) =>
         (match skipWs r with
          | ':' :: r' =>
            (match parseValue fuel r' with
             | some (v, r'') =>
               (match skipWs r'' with
                | ',' :: r3 =>
                   (match parseMembers fuel r3 with
                    | some (kvs, r4) => some (pyDictInsert kvs k v, r4)
                    | none => none)
                | c :: r3 =>
                   if c = Char.ofNat 125 then some ([(k, v)], r3) else none
                | [] => none)
             | none => none)
          | _ => none)
       | none => none)
    | _ => none

end

/-- `json.loads(s)` (on the modelled JSON fragment): parse one value and
reject trailing input. -/
def json_loads (s : String) : Option Value :=
  let cs := s.toList
  match parseValue (cs.length + 1) cs with
  | some (v, rest) => if (skipWs rest).isEmpty then some v else none
  | none => none

example : json_loads "\x7b\"x\": 1\x7d" = some (.obj [("x", .num 1)]) := by decide
example : json_loads " [1, \"a\", null, true] " =
    some (.arr [.num 1, .str "a", .null, .bool true]) := by decide
example : json_loads "2+2" = none := by decide
example : json_loads "" = none := by decide
example : json_dumps_sorted (.obj [("b", .num 2), ("a", .num 1)]) =
    "\x7b\"a\": 1, \"b\": 2\x7d" := by decide
example : pyStr (.num (-3)) = "-3" := by decide
example : pyStr (.bool true) = "True" := by decide

/-! ## streamlit_app.py helpers: aliases, output merge, tool arguments -/

/-- Python `str.strip()` whitespace (ASCII portion: space, tab, newline,
carriage return, form feed, vertical tab). -/
def isPyWs (c : Char) : Bool :=
  c = ' ' || c = '\t' || c = '\n' || c = '\r' || c.toNat = 12 || c.toNat = 11

def pyStripChars (cs : List Char) : List Char :=
  ((cs.dropWhile isPyWs).reverse.dropWhile isPyWs).reverse

/-- Python `s.strip()`. -/
def pyStrip (s : String) : String :=
  String.mk (pyStripChars s.toList)

/-- Python `s.casefold()` (ASCII portion: lower-casing). -/
def pyLower (s : String) : String :=
  String.mk (s.toList.map Char.toLower)

def isPrefixChars : List Char → List Char → Bool
  | [], _ => true
  | _ :: _, [] => false
  | a :: as, b :: bs => a == b && isPrefixChars as bs

def isInfixChars (needle hay : List Char) : Bool :=
  if isPrefixChars needle hay then true
  else
    match hay with
    | [] => false
    | _ :: rest => isInfixChars needle rest

/-- Python `needle in hay` on strings (contiguous substring test). -/
def strContains (hay needle : String) : Bool :=
  isInfixChars needle.toList hay.toList

/-- Python `s.startswith(p)`. -/
def strStartsWith (s p : String) : Bool :=
  isPrefixChars p.toList s.toList

/-- `_normalise_alias` (streamlit_app.py:44): trim, require non-empty, then
case-fold.  Python `str.strip`/`str.casefold` are modelled by `String.trim` /
`String.toLower` (they agree on ASCII, which is all the alias strings the
system produces). -/
def normalise_alias : Value → Option String
  | .str s =>
      let stripped := pyStrip s
      if stripped ≠ "" then some (pyLower stripped) else none
  | _ => none

def isStrV : Value → Bool
  | .str _ => true
  | _ => false

/-- `_serialise_agent_output` (streamlit_app.py:77): if every fragment is a
string, join the truthy (non-empty) ones with a blank line; otherwise expose
the last fragment.  (`fragments[-1]` on an empty list would raise in Python;
the function is only called with a non-empty list, and the model returns
`null` there.) -/
def serialise_agent_output (fragments : List Value) : Value :=
  if fragments.all isStrV then
    .str (String.intercalate "\n\n"
      (fragments.filterMap (fun f =>
        match f with
        | .str s => if s = "" then none else some s
        | _ => none)))
  else
    fragments.getLastD .null

/-- The two keys of an agent entry that `_merge_agent_output` touches. -/
structure MergeState where
  output_fragments : List Value
  output : Option Value
deriving DecidableEq, Repr

/-- `_merge_agent_output` (streamlit_app.py:52).  `output = none` models the
`"output"` key being absent from the entry. -/
def merge_agent_output (st : MergeState) (new_output : Value) : MergeState :=
  if isNoneOrEmptyStr new_output then st
  else
    let fragments := st.output_fragments
    let appended := fragments ++ [new_output]
    let appendCase : MergeState :=
      { output_fragments := appended,
        output := some (serialise_agent_output appended) }
    match fragments.getLast? with
    | none => appendCase
    | some last_fragment =>
        if last_fragment = new_output then
          { st with output := some (serialise_agent_output fragments) }
        else
          match last_fragment, new_output with
          | .str l, .str n =>
              if pyStrip n ≠ "" ∧ strContains l (pyStrip n) then
                { st with output := some (serialise_agent_output fragments) }
              else if pyStrip l ≠ "" ∧ strContains n (pyStrip l) then
                let fragments' := fragments.dropLast ++ [new_output]
                { output_fragments := fragments',
                  output := some (serialise_agent_output fragments') }
              else appendCase
          | _, _ => appendCase

/-- `_normalise_tool_args` (streamlit_app.py:171).  The `repr` fallback on
`json.dumps` raising `TypeError` is unreachable here: every `Value` is
JSON-serialisable (and the source passes `default=str` besides). -/
def normalise_tool_args : Value → String
  | .null => ""
  | .str s =>
      let stripped := pyStrip s
      if stripped = "" then ""
      else
        match json_loads stripped with
        | none => stripped
        | some parsed => json_dumps_sorted parsed
  | v => json_dumps_sorted v

/-- `next((v for v in vs if isinstance(v, str) and v), "")`. -/
def firstNonEmptyStr : List Value → String
  | [] => ""
  | .str s :: rest => if s = "" then firstNonEmptyStr rest else s
  | _ :: rest => firstNonEmptyStr rest

/-- `_tool_signature` (streamlit_app.py:190). -/
def tool_signature (event_data : EventData) : String × String × String :=
  let agent_identifier := firstNonEmptyStr
    [getV event_data "agent_id", getV event_data "agent_key",
     getV event_data "source_fingerprint"]
  let args_repr := normalise_tool_args (getV event_data "tool_args")
  let run_attempts := getV event_data "run_attempts"
  let attempt_repr :=
    if isNoneEmptyOrZero run_attempts then "1" else pyStr run_attempts
  (agent_identifier, attempt_repr, args_repr)

example :
    tool_signature [("agent_id", .str "A"), ("tool_args", .str "\x7b\"x\": 1\x7d")] =
      ("A", "1", "\x7b\"x\": 1\x7d") := by decide
example :
    tool_signature [("agent_id", .str "A"), ("tool_args", .obj [("x", .num 1)])] =
      ("A", "1", "\x7b\"x\": 1\x7d") := by decide
example : normalise_tool_args (.str "2+2") = "2+2" := by decide
example : merge_agent_output ⟨[.str "Hello"], some (.str "Hello")⟩ (.str "Hello world") =
    ⟨[.str "Hello world"], some (.str "Hello world")⟩ := by decide

/-! ## Registry data model (the dict shapes of streamlit_app.py) -/

/-- A tool-invocation correlation signature
`(agent_identifier, attempt_repr, args_repr)`. -/
abbrev Sig := String × String × String

/-- One compact history record (the dicts appended to `history` lists):
event kind, timestamp, and the field snapshot minus `timestamp`/`output`. -/
structure HistoryRec where
  type : String
  timestamp : Value
  summary : EventData
deriving DecidableEq, Repr

/-- `{k: v for k, v in event_data.items() if k not in {"timestamp", "output"}}`. -/
def historySummary (d : EventData) : EventData :=
  d.filter (fun kv => kv.1 ≠ "timestamp" ∧ kv.1 ≠ "output")

def historyRec (event_type : String) (d : EventData) : HistoryRec :=
  { type := event_type, timestamp := getV d "timestamp",
    summary := historySummary d }

/-- A ToolEntry dict.  Keys that Python only creates later (`last_event`,
`last_updated`) carry neutral defaults; they are written before anyone
reads them. -/
structure ToolEntry where
  key : String
  signature : Sig
  name : Value
  status : String
  started_at : Value
  completed_at : Value
  output : Value
  error : Value
  first_seen : Value
  history : List HistoryRec
  agent_identifier : String
  args_repr : String
  run_attempt : String
  last_event : String
  last_updated : Value
deriving DecidableEq, Repr

/-- An AgentEntry dict.  `output = none` models the `"output"` key being
absent; `output_fragments`, `tool_active_map` and `tool_sequence` are
created by `setdefault` with exactly these neutral values. -/
structure AgentEntry where
  run_key : String
  task_id : String
  agent_id : Value
  agent_role : Value
  status : String
  history : List HistoryRec
  tools : List (String × ToolEntry)
  first_seen : Value
  source_fingerprint : Value
  output_fragments : List Value
  output : Option Value
  error : Value
  tool_active_map : List (Sig × String)
  tool_sequence : Nat
  last_event : String
  last_updated : Value
deriving DecidableEq, Repr

/-- A TaskEntry dict.  `agents` holds the per-run-key agent entries the
polling loop attaches (in Python these are shared references into
`agent_registry`; here they are the values written at attachment time). -/
structure TaskEntry where
  task_id : String
  name : Value
  status : String
  history : List HistoryRec
  agents : List (String × AgentEntry)
  first_seen : Value
  last_event : String
  last_updated : Value
deriving DecidableEq, Repr

/-- A queue record as built by the listener / run wrapper.  `run_id = none`
models the key being absent or `None` (Python's `payload.get("run_id")`
conflates the two); `ptype`/`event` similarly model `payload.get("type",
"event:unknown")` and `payload.get("event", {})` defaults.  Record run ids
are strings in this model (the producers only ever emit strings). -/
structure Payload where
  run_id : Option String
  ptype : Option String
  source : String
  event : Option EventData
deriving DecidableEq, Repr

/-- The run-scoped `st.session_state` slice the correlation layer mutates.
`fresh` is the model's `uuid.uuid4()` counter. -/
structure RunState where
  run_id : Option String
  status : String
  events : List Payload
  completed_tasks : List String
  task_registry : List (String × TaskEntry)
  agent_registry : List (String × AgentEntry)
  task_alias_map : List (String × String)
  agent_alias_map : List (String × List (String × String))
  final_output : Value
  errors : List Value
  fresh : Nat
deriving DecidableEq, Repr

/-- `uuid.uuid4().hex`, modelled as a counter-indexed fresh string (the code
relies only on freshness). -/
def uuidHex (n : Nat) : String := "uuid-" ++ toString n

/-- Python `set.add` on the completed-task set (order is irrelevant to every
consumer; the model keeps first-insertion order). -/
def setAdd (s : List String) (x : String) : List String :=
  if x ∈ s then s else s ++ [x]

/-- The run state `_start_run` (streamlit_app.py:264) resets to. -/
def startRunState (run_id : String) : RunState :=
  { run_id := some run_id, status := "running", events := [],
    completed_tasks := [], task_registry := [], agent_registry := [],
    task_alias_map := [], agent_alias_map := [], final_output := .null,
    errors := [], fresh := 0 }

/-! ## Tool-usage correlation (streamlit_app.py:612-719) -/

def toolStatusLookup (et : String) : Option String :=
  if et = "tool:started" then some "running"
  else if et = "tool:finished" then some "completed"
  else if et = "tool:error" then some "failed"
  else none

def statusPendingOrRunning (st : String) : Bool :=
  st == "pending" || st == "running"

/-- `_find_matching_tool_entry` (streamlit_app.py:219): exact signature
match first (note: with no status filter), then an active same-name entry,
then an active entry with the same agent identifier and args. -/
def find_matching_tool_entry (tools : List (String × ToolEntry)) (signature : Sig)
    (event_data : EventData) : Option (String × ToolEntry) :=
  match tools.find? (fun kv => decide (kv.2.signature = signature)) with
  | some kv => some kv
  | none =>
    let name := pyOr (getV event_data "tool_name") (.str "")
    match tools.find? (fun kv =>
        decide (kv.2.name = name) && statusPendingOrRunning kv.2.status) with
    | some kv => some kv
    | none =>
        tools.find? (fun kv =>
          decide (kv.2.agent_identifier = signature.1) &&
          decide (kv.2.args_repr = signature.2.2) &&
          statusPendingOrRunning kv.2.status)

/-- The fresh ToolEntry dict built at streamlit_app.py:628-650. -/
def freshToolEntry (tool_key : String) (signature : Sig) (event_type : String)
    (event_data : EventData) : ToolEntry :=
  { key := tool_key, signature := signature,
    name := pyOr (getV event_data "tool_name")
      (if truthy (getV event_data "tool_class") ∧ event_type = "tool:started"
       then .str (pyStr (getV event_data "tool_class")) else .str "Tool"),
    status := "pending", started_at := getV event_data "timestamp",
    completed_at := .null, output := .null, error := .null,
    first_seen := getV event_data "timestamp", history := [],
    agent_identifier := signature.1, args_repr := signature.2.2,
    run_attempt := signature.2.1, last_event := "", last_updated := .null }

/-- Correlation steps 1-5 of `_update_tool_usage` (streamlit_app.py:617-658):
the entry's storage key (where the in-place mutations land), the `tool_key`
variable Python carries forward (the entry's own `key` field when found),
the base entry, the tools dict after a possible creation, and the sequence
counter.  The `setdefault` calls of the found branch are no-ops here
because every stored entry carries all keys (so `_build_tool_key` is never
consulted). -/
def toolEntrySelection (a : AgentEntry) (event_type : String)
    (event_data : EventData) :
    String × String × ToolEntry × List (String × ToolEntry) × Nat :=
  let tools := a.tools
  let signature := tool_signature event_data
  -- tool_key = active_map.get(signature); tools.get(tool_key) if tool_key
  let viaActive : Option (String × ToolEntry) :=
    match alookup a.tool_active_map signature with
    | some k =>
        if k ≠ "" then
          match alookup tools k with
          | some e => some (k, e)
          | none => none
        else none
    | none => none
  let found : Option (String × ToolEntry) :=
    match viaActive with
    | some ke => some ke
    | none => find_matching_tool_entry tools signature event_data
  match found with
  | some (k, e) => (k, e.key, e, tools, a.tool_sequence)
  | none =>
      let seq := a.tool_sequence + 1
      let tool_key := "tool-" ++ toString seq
      match alookup tools tool_key with
      | some e => (tool_key, tool_key, e, tools, seq)
      | none =>
          let newE := freshToolEntry tool_key signature event_type event_data
          (tool_key, tool_key, newE, ainsert tools tool_key newE, seq)

/-- The ToolEntry as rewritten by one event (streamlit_app.py:669-708):
signature fields, name, timestamps, status, output/error, and the history
append.  The dead `if tool_entry is None: return` guard after creation and
the always-present-key `setdefault`s are dropped. -/
def toolEventEntry (entry0 : ToolEntry) (signature : Sig)
    (event_type : String) (event_data : EventData) : ToolEntry :=
  let e1 :=
    { entry0 with
      signature := signature,
      agent_identifier := signature.1,
      args_repr := signature.2.2,
      run_attempt := signature.2.1 }
  let e2 :=
    if truthy (getV event_data "tool_name") then
      { e1 with name := getV event_data "tool_name" }
    else if event_type = "tool:started" ∧ truthy (getV event_data "tool_class") then
      { e1 with name := .str (pyStr (getV event_data "tool_class")) }
    else e1
  -- tool_entry.setdefault("name", "Tool"): no-op, the key is always present
  let e3 :=
    if event_type = "tool:started" then
      { e2 with started_at := getV event_data "timestamp" }
    else e2
  -- the finished/error `setdefault("started_at", ...)` is likewise a no-op
  let e4 := match toolStatusLookup event_type with
    | some st => { e3 with status := st }
    | none => e3
  let e5 :=
    if event_type = "tool:finished" ∧ getV event_data "output" ≠ .null then
      { e4 with
        output := getV event_data "output",
        completed_at := getV event_data "timestamp" }
    else e4
  let e6 :=
    if event_type = "tool:error" ∧ getV event_data "error" ≠ .null then
      { e5 with
        error := getV event_data "error",
        completed_at := getV event_data "timestamp" }
    else e5
  { e6 with
    last_event := event_type,
    last_updated := getV event_data "timestamp",
    history := e6.history ++ [historyRec event_type event_data] }

/-- `_update_tool_usage` (streamlit_app.py:612), as a pure function on the
agent entry: select or create the correlated entry, register the
active-signature mapping on `tool:started`, rewrite the entry at its
storage key, and drop the active-signature mapping on a terminal event. -/
def update_tool_usage (a : AgentEntry) (event_type : String)
    (event_data : EventData) : AgentEntry :=
  let signature := tool_signature event_data
  let sel := toolEntrySelection a event_type event_data
  let active1 :=
    if event_type = "tool:started" then
      ainsert a.tool_active_map signature sel.2.1
    else a.tool_active_map
  let e7 := toolEventEntry sel.2.2.1 signature event_type event_data
  let active2 :=
    if event_type = "tool:finished" ∨ event_type = "tool:error" then
      aremove active1 signature
    else active1
  { a with
    tools := ainsert sel.2.2.2.1 sel.1 e7,
    tool_active_map := active2,
    tool_sequence := sel.2.2.2.2 }


/-! ## Agent resolution (streamlit_app.py:466-609) -/

def agentStatusLookup (et : String) : Option String :=
  if et = "agent:started" then some "running"
  else if et = "agent:completed" then some "completed"
  else if et = "agent:error" then some "failed"
  else none

/-- The ordered, stripped, non-empty agent alias candidates
(streamlit_app.py:480-489). -/
def agentAliasCandidates (d : EventData) : List String :=
  [getV d "source_fingerprint", getV d "agent_id", getV d "agent_key",
   getV d "agent_role"].filterMap (fun v =>
    match v with
    | .str s => if pyStrip s ≠ "" then some (pyStrip s) else none
    | _ => none)

def isNonEmptyStrV : Value → Bool
  | .str s => s ≠ ""
  | _ => false

def strOf : Value → String
  | .str s => s
  | _ => ""

/-- `_build_agent_run_key` (streamlit_app.py:593): first non-empty string
among fingerprint/agent id/agent key/agent role (un-stripped), else the
timestamp, else a fresh uuid (bumping the model's counter). -/
def build_agent_run_key (task_id : String) (event_data : EventData)
    (fresh : Nat) : String × Nat :=
  let candidates := [getV event_data "source_fingerprint",
    getV event_data "agent_id", getV event_data "agent_key",
    getV event_data "agent_role"]
  match candidates.find? isNonEmptyStrV with
  | some v => (task_id ++ ":" ++ strOf v, fresh)
  | none =>
    match getV event_data "timestamp" with
    | .str ts =>
        if ts ≠ "" then (task_id ++ ":" ++ ts, fresh)
        else (task_id ++ ":" ++ uuidHex fresh, fresh + 1)
    | _ => (task_id ++ ":" ++ uuidHex fresh, fresh + 1)

/-- The fresh AgentEntry dict built at streamlit_app.py:535-545. -/
def freshAgentEntry (run_key task_id : String) (d : EventData) : AgentEntry :=
  { run_key := run_key, task_id := task_id,
    agent_id := getV d "agent_id",
    agent_role := pyOr (getV d "agent_role") (.str "Agent"),
    status := "pending", history := [], tools := [],
    first_seen := getV d "timestamp",
    source_fingerprint := getV d "source_fingerprint",
    output_fragments := [], output := none, error := .null,
    tool_active_map := [], tool_sequence := 0,
    last_event := "", last_updated := .null }

/-- Resolution step 1 (streamlit_app.py:494-502): walk the candidates, use
the task-scoped alias sub-map, and accept only a truthy candidate key that
is present in the registry. -/
def aliasHitAgent (task_aliases : List (String × String))
    (registry : List (String × AgentEntry)) :
    List String → Option (String × AgentEntry)
  | [] => none
  | a :: rest =>
      match normalise_alias (.str a) with
      | none => aliasHitAgent task_aliases registry rest
      | some key =>
          match alookup task_aliases key with
          | some ck =>
              if ck ≠ "" then
                match alookup registry ck with
                | some e => some (ck, e)
                | none => aliasHitAgent task_aliases registry rest
              else aliasHitAgent task_aliases registry rest
          | none => aliasHitAgent task_aliases registry rest

/-- Resolution step 2 (streamlit_app.py:504-519): first registry entry for
this task matching on agent id, fingerprint, or role (each guarded by the
event actually carrying a truthy value for that field). -/
def scanAgents (registry : List (String × AgentEntry)) (d : EventData)
    (task_id : String) : Option (String × AgentEntry) :=
  registry.find? (fun kv => decide (kv.2.task_id = task_id) && (
    (truthy (getV d "agent_id") && decide (kv.2.agent_id = getV d "agent_id")) ||
    (truthy (getV d "source_fingerprint") &&
      decide (kv.2.source_fingerprint = getV d "source_fingerprint")) ||
    (truthy (getV d "agent_role") &&
      decide (kv.2.agent_role = getV d "agent_role"))))

/-- Resolution step 3 (streamlit_app.py:521-528): the single-agent-per-task
heuristic.  Returns the storage key, the entry's own recorded `run_key`
(the value Python reads off the entry), and the entry. -/
def singleCandidateAgent (registry : List (String × AgentEntry))
    (task_id : String) : Option (String × String × AgentEntry) :=
  match registry.filter (fun kv => decide (kv.2.task_id = task_id)) with
  | [(k, e)] => if e.run_key ≠ "" then some (k, e.run_key, e) else none
  | _ => none

/-- The result of agent identity resolution: where the entry lives
(`foundKey`, the key Python's in-place mutations land on), the `run_key`
variable Python carries forward (registered into the alias map and written
into the entry), the base entry, and the uuid counter. -/
structure AgentResolution where
  foundKey : String
  runKeyVar : String
  entry : AgentEntry
  fresh : Nat
deriving Repr

/-- Steps 1-4 of `_update_agent_registry` plus entry creation
(streamlit_app.py:491-546). -/
def resolveAgent (d : EventData) (task_id : String)
    (registry : List (String × AgentEntry))
    (task_aliases : List (String × String)) (fresh : Nat) : AgentResolution :=
  match aliasHitAgent task_aliases registry (agentAliasCandidates d) with
  | some (k, e) => ⟨k, k, e, fresh⟩
  | none =>
    match scanAgents registry d task_id with
    | some (k, e) => ⟨k, k, e, fresh⟩
    | none =>
      match singleCandidateAgent registry task_id with
      | some (k, rk, e) => ⟨k, rk, e, fresh⟩
      | none =>
        let (rk, fresh') := build_agent_run_key task_id d fresh
        match alookup registry rk with
        | some e => ⟨rk, rk, e, fresh'⟩
        | none => ⟨rk, rk, freshAgentEntry rk task_id d, fresh'⟩

/-- Register every normalised candidate alias to the resolved identity
(used for both `task_alias_map` and the task-scoped agent alias map). -/
def registerAliases (m : List (String × String)) (candidates : List String)
    (ident : String) : List (String × String) :=
  candidates.foldl (fun acc a =>
    match normalise_alias (.str a) with
    | some key => ainsert acc key ident
    | none => acc) m

/-- The event's own `task_id` field as the task fallback
(streamlit_app.py:472).  Model restriction: a non-string `task_id` field is
treated as absent (Python would accept any truthy hashable; the system only
ever produces strings). -/
def fieldTaskId (d : EventData) : Option String :=
  match getV d "task_id" with
  | .str s => if s ≠ "" then some s else none
  | _ => none

/-- The AgentEntry as rewritten by one event (streamlit_app.py:553-588):
identity fields, status, output merge, error, tool usage, and the history
append. -/
def agentEventEntry (event_type : String) (d : EventData) (task_id : String)
    (res : AgentResolution) : AgentEntry :=
  let e1 := { res.entry with run_key := res.runKeyVar, task_id := task_id }
  let e2 :=
    if truthy (getV d "agent_role") then
      { e1 with agent_role := getV d "agent_role" } else e1
  let e3 :=
    if truthy (getV d "agent_id") then
      { e2 with agent_id := getV d "agent_id" } else e2
  let e4 :=
    if truthy (getV d "source_fingerprint") then
      { e3 with source_fingerprint := getV d "source_fingerprint" } else e3
  let e5 := match agentStatusLookup event_type with
    | some st => { e4 with status := st }
    | none => e4
  let e6 :=
    if event_type = "agent:completed" ∧ truthy (getV d "output") then
      let m := merge_agent_output ⟨e5.output_fragments, e5.output⟩
        (getV d "output")
      { e5 with
        output_fragments := m.output_fragments,
        output := m.output }
    else e5
  let e7 :=
    if event_type = "agent:error" ∧ truthy (getV d "error") then
      { e6 with error := getV d "error" } else e6
  let e8 :=
    if strStartsWith event_type "tool:" then
      update_tool_usage e7 event_type d
    else e7
  -- entry.setdefault("first_seen", ...) is a no-op: the key is present
  { e8 with
    last_event := event_type,
    last_updated := getV d "timestamp",
    history := e8.history ++ [historyRec event_type d] }

/-- Alias registration, entry update and write-back of
`_update_agent_registry` (streamlit_app.py:548-590), applied once the task
id, the alias store (after its `setdefault`), the task-scoped alias sub-map
and the resolution are in hand. -/
def applyAgentEvent (event_type : String) (d : EventData) (task_id : String)
    (s : RunState) (alias_store0 : List (String × List (String × String)))
    (task_aliases : List (String × String)) (res : AgentResolution) :
    Option AgentEntry × RunState :=
  (some (agentEventEntry event_type d task_id res),
   { s with
     agent_registry := ainsert s.agent_registry res.foundKey
       (agentEventEntry event_type d task_id res),
     agent_alias_map := ainsert alias_store0 task_id
       (registerAliases task_aliases (agentAliasCandidates d) res.runKeyVar),
     fresh := res.fresh })

/-- `_update_agent_registry` (streamlit_app.py:466). -/
def update_agent_registry (event_type : String) (d : EventData)
    (task_id0 : Option String) (s : RunState) : Option AgentEntry × RunState :=
  if ¬ (strStartsWith event_type "agent:" ∨ strStartsWith event_type "tool:")
  then (none, s)
  else
    let tid? : Option String :=
      match task_id0 with
      | some t => if t ≠ "" then some t else fieldTaskId d
      | none => fieldTaskId d
    match tid? with
    | none => (none, s)
    | some task_id =>
      -- alias_store.setdefault(task_id, {}) inserts the sub-map up front
      let alias_store0 :=
        match alookup s.agent_alias_map task_id with
        | some _ => s.agent_alias_map
        | none => ainsert s.agent_alias_map task_id []
      let task_aliases := (alookup alias_store0 task_id).getD []
      let res := resolveAgent d task_id s.agent_registry task_aliases s.fresh
      applyAgentEvent event_type d task_id s alias_store0 task_aliases res

/-! ## Task resolution and the event processor (streamlit_app.py:333-463) -/

def taskStatusLookup (et : String) : Option String :=
  if et = "task:started" then some "running"
  else if et = "task:completed" then some "completed"
  else if et = "task:failed" then some "failed"
  else none

/-- The ordered, stripped, non-empty task alias candidates: identifier-like
(`task_id`, `id`) then name-like (`name`, `task_name`)
(streamlit_app.py:369-382). -/
def taskAliasCandidates (d : EventData) : List String :=
  [getV d "task_id", getV d "id", getV d "name", getV d "task_name"].filterMap
    (fun v =>
      match v with
      | .str s => if pyStrip s ≠ "" then some (pyStrip s) else none
      | _ => none)

/-- Resolution step 1 (streamlit_app.py:386-390): the first candidate whose
normalised form is registered in `task_alias_map`. -/
def findAliasHit (alias_map : List (String × String)) :
    List String → Option String
  | [] => none
  | a :: rest =>
      match normalise_alias (.str a) with
      | some key =>
          (match alookup alias_map key with
           | some tid => some tid
           | none => findAliasHit alias_map rest)
      | none => findAliasHit alias_map rest

/-- Resolution step 2 (streamlit_app.py:392-396): adopt the first stripped
non-empty identifier-like alias. -/
def firstIdentifierAlias (d : EventData) : Option String :=
  [getV d "task_id", getV d "id"].findSome? (fun v =>
    match v with
    | .str s => if pyStrip s ≠ "" then some (pyStrip s) else none
    | _ => none)

/-- The normalised name-like aliases (streamlit_app.py:399-403). -/
def normalisedNames (d : EventData) : List String :=
  [getV d "name", getV d "task_name"].filterMap (fun v =>
    match v with
    | .str s => if pyStrip s ≠ "" then normalise_alias (.str s) else none
    | _ => none)

/-- Resolution step 3 (streamlit_app.py:404-409): first existing TaskEntry
whose stored name normalises into the candidate name set. -/
def scanTasksByName (tasks : List (String × TaskEntry)) (names : List String) :
    Option String :=
  tasks.findSome? (fun kv =>
    match kv.2.name with
    | .str s =>
        if s ≠ "" then
          match normalise_alias (.str s) with
          | some key => if key ∈ names then some kv.1 else none
          | none => none
        else none
    | _ => none)

/-- The fresh TaskEntry dict built at streamlit_app.py:425-435. -/
def freshTaskEntry (task_id : String) (d : EventData) : TaskEntry :=
  { task_id := task_id,
    name := pyOr (getV d "name") (pyOr (getV d "task_name")
      (pyOr (getV d "description") (.str task_id))),
    status := "pending", history := [], agents := [],
    first_seen := getV d "timestamp",
    last_event := "", last_updated := .null }

/-- Resolution steps 1-6 of `_update_task_registry`
(streamlit_app.py:384-418): the resolved task id together with the uuid
counter afterwards, or `none` for the "no task" early return. -/
def resolveTaskId (event_type : String) (d : EventData) (s : RunState) :
    Option (String × Nat) :=
  let candidates := taskAliasCandidates d
  let step1 := findAliasHit s.task_alias_map candidates
  let step2 := match step1 with
    | some t => some t
    | none => firstIdentifierAlias d
  let step3 := match step2 with
    | some t => some t
    | none => scanTasksByName s.task_registry (normalisedNames d)
  match step3 with
  | some t => some (t, s.fresh)
  | none =>
      if candidates.isEmpty ∧ ¬ strStartsWith event_type "task:" then none
      else
        match candidates with
        | a :: _ => some (a, s.fresh)
        | [] => some (uuidHex s.fresh, s.fresh + 1)

/-- The TaskEntry as rewritten by one event (streamlit_app.py:425-461):
creation by `setdefault`, the `task_id`/name/status updates, and the
history append. -/
def taskEventEntry (event_type : String) (d : EventData) (s : RunState)
    (task_id : String) : TaskEntry :=
  let entry0 := match alookup s.task_registry task_id with
    | some e => e
    | none => freshTaskEntry task_id d
  let e1 := { entry0 with task_id := task_id }
  let preferred := pyOr (getV d "name")
    (pyOr (getV d "task_name") (getV d "description"))
  let e2 := if truthy preferred then { e1 with name := preferred } else e1
  let e3 := match taskStatusLookup event_type with
    | some st => { e2 with status := st }
    | none => e2
  -- entry.setdefault("first_seen", ...) is a no-op: the key is present
  { e3 with
    last_event := event_type,
    last_updated := getV d "timestamp",
    history := e3.history ++ [historyRec event_type d] }

/-- Alias registration, entry creation/update and write-back of
`_update_task_registry` (streamlit_app.py:420-463), applied once the task
id has been resolved. -/
def applyTaskEvent (event_type : String) (d : EventData) (s : RunState)
    (task_id : String) (fresh' : Nat) :
    Option String × Option TaskEntry × RunState :=
  (some task_id, some (taskEventEntry event_type d s task_id),
   { s with
     task_registry :=
       ainsert s.task_registry task_id (taskEventEntry event_type d s task_id),
     task_alias_map :=
       registerAliases s.task_alias_map (taskAliasCandidates d) task_id,
     fresh := fresh' })

/-- `_update_task_registry` (streamlit_app.py:365).  Returns the resolved
task id, the post-update entry, and the new state (the Python function
returns the first two and mutates the session registries in place). -/
def update_task_registry (event_type : String) (d : EventData) (s : RunState) :
    Option String × Option TaskEntry × RunState :=
  match resolveTaskId event_type d s with
  | none => (none, none, s)
  | some (task_id, fresh') => applyTaskEvent event_type d s task_id fresh'

/-- `key = task_id or (task_entry or {}).get("task_id")`, with the final
truthiness test of `if key:` folded in. -/
def taskEntryIdFallback : Option TaskEntry → Option String
  | some t => if t.task_id ≠ "" then some t.task_id else none
  | none => none

/-- Attaching the touched agent entry into the touched task entry
(streamlit_app.py:347-349): Python mutates the shared `agents` dict of the
registry entry; here the updated task entry is written back at the resolved
task id. -/
def attachStage (ar1 : Option AgentEntry) (te1 : Option TaskEntry)
    (tid? : Option String) (st : RunState) : RunState :=
  match ar1, te1, tid? with
  | some a, some t, some tid =>
      { st with
        task_registry := ainsert st.task_registry tid
          { t with agents := ainsert t.agents a.run_key a } }
  | _, _, _ => st

/-- `key = task_id or (task_entry or {}).get("task_id")` with the final
`if key:` truthiness folded in (streamlit_app.py:352-356). -/
def completedKey (tid? : Option String) (te1 : Option TaskEntry) :
    Option String :=
  match tid? with
  | some t => if t ≠ "" then some t else taskEntryIdFallback te1
  | none => taskEntryIdFallback te1

/-- The trailing status branches of `_process_event`
(streamlit_app.py:351-362). -/
def finalStage (event_type : String) (d : EventData) (key? : Option String)
    (st : RunState) : RunState :=
  if event_type = "task:completed" then
    match key? with
    | some k => { st with completed_tasks := setAdd st.completed_tasks k }
    | none =>
        { st with completed_tasks := setAdd st.completed_tasks event_type }
  else if event_type = "run:completed" then
    { st with status := "completed", final_output := getV d "output" }
  else if event_type = "run:failed" then
    { st with
      errors := st.errors ++
        [if hasKey d "error" then getV d "error" else .str "Unknown error"],
      status := "failed" }
  else st

/-- `_process_event` (streamlit_app.py:333). -/
def process_event (s : RunState) (p : Payload) : RunState :=
  if p.run_id ≠ s.run_id then s
  else
    let event_type := p.ptype.getD "event:unknown"
    let d := p.event.getD []
    let s1 := { s with events := s.events ++ [p] }
    let r := update_task_registry event_type d s1
    let task_entry1? := match r.2.1, r.1 with
      | none, some tid =>
          if tid ≠ "" then alookup r.2.2.task_registry tid else none
      | te, _ => te
    let ar := update_agent_registry event_type d r.1 r.2.2
    finalStage event_type d (completedKey r.1 task_entry1?)
      (attachStage ar.1 task_entry1? r.1 ar.2)

/-- `EXPECTED_TASKS` (streamlit_app.py:34). -/
def EXPECTED_TASKS : Nat := 4

/-- `_progress_fraction` (streamlit_app.py:736), over exact rationals.  The
Python float arithmetic is exact at every reachable point of this
function (small integers divided by 4, compared against the literals 0.999
and 1.0), so ℚ is a faithful model of the observable comparisons. -/
def progress_fraction (s : RunState) : ℚ :=
  if s.status = "idle" then 0
  else
    min ((s.completed_tasks.length : ℚ) / (EXPECTED_TASKS : ℚ))
      (if s.status = "running" then 999 / 1000 else 1)

/-! ## Listener model (listeners.py) -/

/-- The attributes `_get_task_identifier` / `_get_task_name` probe on the
event's `task` object (`getattr(task, attr, None)`; `null` models an absent
attribute). -/
structure RawTaskObj where
  id : Value
  task_id : Value
  name : Value
  title : Value
  description : Value
  fingerprint_uuid : Value
deriving Repr

/-- The attributes `_get_agent_identifiers` probes on the event's `agent`. -/
structure RawAgentObj where
  fingerprint_uuid : Value
  id : Value
  role : Value
  name : Value
deriving Repr

/-- The inbound event object, with the two library serialisation calls
modelled as their results: `to_json_result = none` models an event without a
`to_json` method, `some (.error msg)` a call raising an exception whose
`repr` is `msg`, likewise `to_serializable_result` (whose exception
propagates to the handler's guard). -/
structure RawEvent where
  typeName : String
  to_json_result : Option (Except String Value)
  to_serializable_result : Except String Value
  task : Option RawTaskObj
  agent : Option RawAgentObj
deriving Repr

/-- The handler's `source` argument: the type name, the optional
`role`/`name` attributes (`none` = `hasattr` false), and whether touching
the attributes raises (caught by `_describe_source`'s own guard). -/
structure SourceObj where
  typeName : String
  role : Option Value
  name : Option Value
  access_raises : Bool
deriving Repr

/-- `_describe_source` (listeners.py:173). -/
def describe_source (src : SourceObj) : String :=
  if src.access_raises then src.typeName
  else
    let nameCase :=
      match src.name with
      | some n =>
          if truthy n then src.typeName ++ "(" ++ pyStr n ++ ")"
          else src.typeName
      | none => src.typeName
    match src.role with
    | some r =>
        if truthy r then src.typeName ++ "(" ++ pyStr r ++ ")" else nameCase
    | none => nameCase

/-- First probed attribute that is a non-empty string. -/
def firstStrAttr : List Value → Option String
  | [] => none
  | .str s :: rest => if s ≠ "" then some s else firstStrAttr rest
  | _ :: rest => firstStrAttr rest

/-- `_get_task_identifier` (listeners.py:117). -/
def get_task_identifier (t : RawTaskObj) : Option String :=
  match firstStrAttr [t.id, t.task_id, t.name] with
  | some s => some s
  | none =>
      match t.fingerprint_uuid with
      | .str s => if s ≠ "" then some s else none
      | _ => none

/-- `_get_task_name` (listeners.py:130). -/
def get_task_name (t : RawTaskObj) : Option String :=
  firstStrAttr [t.name, t.title, t.description]

/-- `_get_agent_identifiers` (listeners.py:137). -/
def get_agent_identifiers (a : RawAgentObj) :
    Option String × Option String :=
  let agent_id :=
    match a.fingerprint_uuid with
    | .str s => if s ≠ "" then some s else firstStrAttr [a.id]
    | _ => firstStrAttr [a.id]
  let agent_role := firstStrAttr [a.role, a.name]
  (agent_id, agent_role)

/-- `dict.setdefault(k, v)` on an event payload: append only if absent. -/
def setdefaultD (d : EventData) (k : String) (v : Value) : EventData :=
  if hasKey d k then d else d ++ [(k, v)]

/-- `_enrich_event` (listeners.py:93). -/
def enrich_event (e : RawEvent) (data : EventData) : EventData :=
  let d1 :=
    match e.task with
    | some t =>
        let da :=
          match get_task_identifier t with
          | some tid => setdefaultD data "task_id" (.str tid)
          | none => data
        (match get_task_name t with
         | some tn => setdefaultD da "task_name" (.str tn)
         | none => da)
    | none => data
  match e.agent with
  | some a =>
      let (aid?, arole?) := get_agent_identifiers a
      let d2 :=
        match aid? with
        | some aid => setdefaultD d1 "agent_id" (.str aid)
        | none => d1
      (match arole? with
       | some ar => setdefaultD d2 "agent_role" (.str ar)
       | none => d2)
  | none => d1

/-- `_serialise_event` (listeners.py:154): `to_json` result if available and
successful, else `to_serializable` (whose failure propagates); then ensure
the `event_type` discriminator, wrapping non-dict data. -/
def serialise_event (e : RawEvent) : Except String EventData :=
  let data? : Except String Value :=
    match e.to_json_result with
    | some (.ok v) => .ok v
    | some (.error _) => e.to_serializable_result
    | none => e.to_serializable_result
  match data? with
  | .error msg => .error msg
  | .ok (.obj kvs) =>
      .ok (if hasKey kvs "event_type" then kvs
           else kvs ++ [("event_type", .str e.typeName)])
  | .ok v => .ok [("event_type", .str e.typeName), ("value", v)]

/-- The single record the handler built by `_build_handler` (listeners.py:69)
pushes for one inbound `(source, event)` pair: the enriched serialised
payload on success, the `listener:error` record on any internal failure
(`now` models `datetime.utcnow().isoformat()`, `msg` models `repr(exc)`). -/
def handler_record (run_id event_type now : String) (src : SourceObj)
    (e : RawEvent) : Payload :=
  match serialise_event e with
  | .ok data =>
      { run_id := some run_id, ptype := some event_type,
        source := describe_source src,
        event := some (enrich_event e data) }
  | .error msg =>
      { run_id := some run_id, ptype := some "listener:error",
        source := describe_source src,
        event := some [("error", .str msg),
                       ("event_type", .str e.typeName),
                       ("timestamp", .str now)] }

/-- The handler's queue pushes for one inbound event: the body performs
exactly one `queue.put`, after the `try`/`except` above resolved the
payload.  Totality of this function (together with the `Except`-modelled
library failures) is the embedding of "never raises past its boundary". -/
def handler_pushes (run_id event_type now : String) (src : SourceObj)
    (e : RawEvent) : List Payload :=
  [handler_record run_id event_type now src e]

/-! ## Spec-side definitions (refinement claims) and concrete scenarios -/

/-- Spec wording (refinement target): "agent_identifier is the first
non-empty string among the agent_id, agent_key, and source_fingerprint
fields (empty string if none)". -/
def specAgentIdentifier (d : EventData) : String :=
  match [getV d "agent_id", getV d "agent_key",
         getV d "source_fingerprint"].filter isNonEmptyStrV with
  | v :: _ => strOf v
  | [] => ""

/-- Spec wording (refinement target): "attempt_repr is the string form of
the run_attempts field except that absent, empty-string, or zero values
yield 1" (the Python values equal to zero are `0` and `False`). -/
def specAttemptRepr (d : EventData) : String :=
  let v := getV d "run_attempts"
  if v = .null ∨ v = .str "" ∨ v = .num 0 ∨ v = .bool false then "1"
  else pyStr v

/-- Spec wording (refinement target): "args_repr is the tool_args
canonicalized by parsing JSON-encoded strings and re-serializing with
sorted keys, falling back to the stripped raw string when not
JSON-parseable, and empty when tool_args is absent or blank". -/
def specArgsRepr (d : EventData) : String :=
  match getV d "tool_args" with
  | .null => ""
  | .str s =>
      if pyStrip s = "" then ""
      else
        match json_loads (pyStrip s) with
        | some v => json_dumps_sorted v
        | none => pyStrip s
  | v => json_dumps_sorted v

/-- A fresh running state (run id "R") for the concrete scenarios. -/
def demoState : RunState := startRunState "R"

def mkPayload (t : String) (d : EventData) : Payload :=
  { run_id := some "R", ptype := some t, source := "src", event := some d }

def taskStartedT1 : Payload :=
  mkPayload "task:started" [("task_id", .str "T1"), ("timestamp", .str "t0")]

def taskCompletedNameT1 : Payload :=
  mkPayload "task:completed"
    [("task_name", .str "T1"), ("timestamp", .str "t1")]

/-- A task-scoped event carrying no alias at all. -/
def taskStartedBare : Payload :=
  mkPayload "task:started" [("timestamp", .str "t0")]

def toolEventData (extra : EventData) : EventData :=
  [("task_id", .str "t1"), ("agent_id", .str "A"), ("tool_name", .str "Calc"),
   ("tool_args", .str "2+2"), ("timestamp", .str "ts")] ++ extra

def toolStartedP : Payload := mkPayload "tool:started" (toolEventData [])

def toolFinishedP : Payload :=
  mkPayload "tool:finished" (toolEventData [("output", .str "4")])

/-- States along the P5 sequential-reuse trace: started, finished (closing
the invocation), then an identical started/finished pair. -/
def c3AfterTwo : RunState :=
  process_event (process_event demoState toolStartedP) toolFinishedP

def c3AfterThree : RunState := process_event c3AfterTwo toolStartedP

def c3FinalState : RunState := process_event c3AfterThree toolFinishedP

/-- Identity-stability invariant for the task registry: every stored entry
records its storage key as its `task_id`. -/
def TaskRegInv (s : RunState) : Prop :=
  ∀ kv ∈ s.task_registry, (kv.2).task_id = kv.1

/-- Identity-stability invariant for the agent registry: every stored entry
records its storage key as its `run_key`, and storage keys are non-empty
(the code only creates entries under non-empty synthetic run keys). -/
def AgentRegInv (s : RunState) : Prop :=
  ∀ kv ∈ s.agent_registry, (kv.2).run_key = kv.1 ∧ kv.1 ≠ ""

def RegInv (s : RunState) : Prop := TaskRegInv s ∧ AgentRegInv s

/-! ## General lemmas about the dict model -/

theorem alookup_nil {κ α : Type} [DecidableEq κ] (k : κ) :
    alookup ([] : List (κ × α)) k = none := rfl

theorem alookup_cons {κ α : Type} [DecidableEq κ] (k0 : κ) (v0 : α)
    (rest : List (κ × α)) (k : κ) :
    alookup ((k0, v0) :: rest) k =
      if k0 = k then some v0 else alookup rest k := by
  by_cases h : k0 = k <;> simp [alookup, List.find?, h]

theorem alookup_ainsert {κ α : Type} [DecidableEq κ] (m : List (κ × α))
    (k k' : κ) (v : α) :
    alookup (ainsert m k v) k' = if k = k' then some v else alookup m k' := by
  induction m with
  | nil =>
      by_cases h : k = k' <;> simp [ainsert, alookup_cons, alookup_nil, h]
  | cons kv rest ih =>
      obtain ⟨k0, v0⟩ := kv
      by_cases h0 : k0 = k
      · subst h0
        by_cases h : k0 = k' <;> simp [ainsert, alookup_cons, h]
      · by_cases h : k0 = k'
        · subst h
          have hne : ¬ k = k0 := fun hh => h0 hh.symm
          simp [ainsert, if_neg h0, alookup_cons, hne]
        · simp [ainsert, if_neg h0, alookup_cons, h, ih]

theorem alookup_ainsert_self {κ α : Type} [DecidableEq κ] (m : List (κ × α))
    (k : κ) (v : α) : alookup (ainsert m k v) k = some v := by
  simp [alookup_ainsert]

theorem alookup_ainsert_ne {κ α : Type} [DecidableEq κ] (m : List (κ × α))
    (k k' : κ) (v : α) (h : k ≠ k') :
    alookup (ainsert m k v) k' = alookup m k' := by
  simp [alookup_ainsert, h]

theorem akeys_ainsert_of_isSome {κ α : Type} [DecidableEq κ]
    (m : List (κ × α)) (k : κ) (v : α) (h : (alookup m k).isSome) :
    akeys (ainsert m k v) = akeys m := by
  induction m with
  | nil => simp [alookup_nil] at h
  | cons kv rest ih =>
      obtain ⟨k0, v0⟩ := kv
      by_cases h0 : k0 = k
      · subst h0; simp [ainsert, akeys]
      · rw [alookup_cons, if_neg h0] at h
        simp only [ainsert, if_neg h0, akeys, List.map_cons, List.cons.injEq,
          true_and]
        exact ih h

theorem akeys_ainsert_of_none {κ α : Type} [DecidableEq κ]
    (m : List (κ × α)) (k : κ) (v : α) (h : alookup m k = none) :
    akeys (ainsert m k v) = akeys m ++ [k] := by
  induction m with
  | nil => simp [ainsert, akeys]
  | cons kv rest ih =>
      obtain ⟨k0, v0⟩ := kv
      by_cases h0 : k0 = k
      · subst h0; rw [alookup_cons, if_pos rfl] at h; exact absurd h (by simp)
      · rw [alookup_cons, if_neg h0] at h
        simp only [ainsert, if_neg h0, akeys, List.map_cons, List.cons_append,
          List.cons.injEq, true_and]
        exact ih h

theorem alookup_isSome_ainsert {κ α : Type} [DecidableEq κ]
    (m : List (κ × α)) (k k' : κ) (v : α) (h : (alookup m k').isSome) :
    (alookup (ainsert m k v) k').isSome := by
  by_cases hk : k = k'
  · subst hk; simp [alookup_ainsert_self]
  · rwa [alookup_ainsert_ne _ _ _ _ hk]

theorem mem_of_alookup_eq_some {κ α : Type} [DecidableEq κ]
    (m : List (κ × α)) (k : κ) (v : α) (h : alookup m k = some v) :
    (k, v) ∈ m := by
  induction m with
  | nil => simp [alookup_nil] at h
  | cons kv rest ih =>
      obtain ⟨k0, v0⟩ := kv
      rw [alookup_cons] at h
      by_cases h0 : k0 = k
      · rw [if_pos h0] at h
        subst h0
        obtain rfl : v0 = v := by simpa using h
        simp
      · rw [if_neg h0] at h
        exact List.mem_cons_of_mem _ (ih h)

theorem mem_ainsert {κ α : Type} [DecidableEq κ] (m : List (κ × α))
    (k : κ) (v : α) (kv : κ × α) (h : kv ∈ ainsert m k v) :
    kv = (k, v) ∨ kv ∈ m := by
  induction m with
  | nil => simpa [ainsert] using h
  | cons kv0 rest ih =>
      obtain ⟨k0, v0⟩ := kv0
      by_cases h0 : k0 = k
      · subst h0
        rw [show ainsert ((k0, v0) :: rest) k0 v = (k0, v) :: rest from by
          simp [ainsert]] at h
        rcases List.mem_cons.mp h with h1 | h1
        · exact Or.inl h1
        · exact Or.inr (List.mem_cons_of_mem _ h1)
      · rw [show ainsert ((k0, v0) :: rest) k v = (k0, v0) :: ainsert rest k v
          from by simp [ainsert, h0]] at h
        rcases List.mem_cons.mp h with h1 | h1
        · exact Or.inr (by simp [h1])
        · rcases ih h1 with h' | h'
          · exact Or.inl h'
          · exact Or.inr (List.mem_cons_of_mem _ h')

theorem alookup_isSome_of_mem {κ α : Type} [DecidableEq κ]
    (m : List (κ × α)) (kv : κ × α) (h : kv ∈ m) :
    (alookup m kv.1).isSome := by
  induction m with
  | nil => simp at h
  | cons kv0 rest ih =>
      obtain ⟨k0, v0⟩ := kv0
      rw [alookup_cons]
      by_cases h0 : k0 = kv.1
      · simp [h0]
      · rw [if_neg h0]
        rcases List.mem_cons.mp h with h' | h'
        · exact absurd (congrArg Prod.fst h'.symm) h0
        · exact ih h'

/-! ## Lemmas about stripping and alias registration -/

theorem dropWhile_head_false (p : Char → Bool) :
    ∀ (l : List Char) (c : Char) (rest : List Char),
      l.dropWhile p = c :: rest → p c = false := by
  intro l
  induction l with
  | nil => intro c rest h; simp [List.dropWhile] at h
  | cons a as ih =>
      intro c rest h
      rw [List.dropWhile_cons] at h
      by_cases hp : p a
      · rw [if_pos hp] at h; exact ih _ _ h
      · rw [if_neg hp] at h
        obtain ⟨rfl, -⟩ := List.cons.injEq .. ▸ h
        simpa using hp

theorem dropWhile_eq_self_of_head_false (p : Char → Bool) (l : List Char)
    (h : ∀ c rest, l = c :: rest → p c = false) : l.dropWhile p = l := by
  cases l with
  | nil => simp
  | cons a as =>
      rw [List.dropWhile_cons, if_neg (by simpa using h a as rfl)]

theorem dropWhile_idem (p : Char → Bool) (l : List Char) :
    (l.dropWhile p).dropWhile p = l.dropWhile p := by
  apply dropWhile_eq_self_of_head_false
  intro c rest h
  exact dropWhile_head_false p l c rest h

theorem dropWhile_suffix_exists (p : Char → Bool) (l : List Char) :
    ∃ t, l = t ++ l.dropWhile p := by
  induction l with
  | nil => exact ⟨[], rfl⟩
  | cons a as ih =>
      by_cases hp : p a
      · obtain ⟨t, ht⟩ := ih
        refine ⟨a :: t, ?_⟩
        rw [List.dropWhile_cons, if_pos hp, List.cons_append, ← ht]
      · exact ⟨[], by rw [List.dropWhile_cons, if_neg hp, List.nil_append]⟩

theorem pyStripChars_idem (l : List Char) :
    pyStripChars (pyStripChars l) = pyStripChars l := by
  unfold pyStripChars
  set p := isPyWs with hp
  set l1 := l.dropWhile p with hl1
  set r := (l1.reverse.dropWhile p).reverse with hr
  have hrrev : r.reverse = l1.reverse.dropWhile p := by rw [hr, List.reverse_reverse]
  have hstep1 : r.dropWhile p = r := by
    apply dropWhile_eq_self_of_head_false
    intro c rest hc
    obtain ⟨t, ht⟩ := dropWhile_suffix_exists p l1.reverse
    have hl1eq : l1 = (l1.reverse.dropWhile p).reverse ++ t.reverse := by
      have := congrArg List.reverse ht
      rwa [List.reverse_reverse, List.reverse_append] at this
    have : l1 = c :: (rest ++ t.reverse) := by
      rw [hl1eq, ← hrrev, List.reverse_reverse, hc, List.cons_append]
    exact dropWhile_head_false p l c (rest ++ t.reverse) (by rw [← this])
  rw [hstep1, hrrev, dropWhile_idem, ← hrrev, List.reverse_reverse]

theorem toList_mk (l : List Char) : (String.mk l).toList = l := rfl

theorem pyStrip_idem (s : String) : pyStrip (pyStrip s) = pyStrip s := by
  unfold pyStrip
  rw [toList_mk, pyStripChars_idem]

theorem pyStrip_pyStrip_ne_empty (s : String) (h : pyStrip s ≠ "") :
    pyStrip (pyStrip s) ≠ "" := by rwa [pyStrip_idem]

/-- Every alias registered by `registerAliases` (and every key that already
mapped to the identity) maps to the identity afterwards. -/
theorem registerAliases_lookup_of_prior (cands : List String)
    (m : List (String × String)) (tid key : String)
    (h : alookup m key = some tid) :
    alookup (registerAliases m cands tid) key = some tid := by
  induction cands generalizing m with
  | nil => simpa [registerAliases]
  | cons c cs ih =>
      simp only [registerAliases, List.foldl_cons]
      cases hc : normalise_alias (.str c) with
      | none =>
          have := ih m h
          simpa [registerAliases, hc] using this
      | some ck =>
          have hnext : alookup (ainsert m ck tid) key = some tid := by
            by_cases hk : ck = key
            · subst hk; simp [alookup_ainsert_self]
            · rwa [alookup_ainsert_ne _ _ _ _ hk]
          have := ih (ainsert m ck tid) hnext
          simpa [registerAliases, hc] using this

theorem registerAliases_lookup_mem (cands : List String)
    (m : List (String × String)) (tid key : String)
    (h : ∃ c ∈ cands, normalise_alias (.str c) = some key) :
    alookup (registerAliases m cands tid) key = some tid := by
  induction cands generalizing m with
  | nil => simp at h
  | cons c cs ih =>
      obtain ⟨c', hc', hkey⟩ := h
      rcases List.mem_cons.mp hc' with rfl | hmem
      · simp only [registerAliases, List.foldl_cons, hkey]
        exact registerAliases_lookup_of_prior cs _ tid key
          (alookup_ainsert_self m key tid)
      · simp only [registerAliases, List.foldl_cons]
        cases hc : normalise_alias (.str c) with
        | none =>
            have := ih m ⟨c', hmem, hkey⟩
            simpa [registerAliases, hc] using this
        | some ck =>
            have := ih (ainsert m ck tid) ⟨c', hmem, hkey⟩
            simpa [registerAliases, hc] using this

/-- A concatenation around `":"` is never the empty string. -/
theorem append_colon_ne_empty (a b : String) : a ++ ":" ++ b ≠ "" := by
  intro h
  have := congrArg String.length h
  rw [String.length_append, String.length_append] at this
  have h1 : (":" : String).length = 1 := rfl
  have h2 : ("" : String).length = 0 := rfl
  omega

/-! ## Claim C6: out-of-run isolation -/

/-- C6: for every state and every drained record whose `run_id` differs from
the active run's `run_id`, processing the record leaves every component of
the state unchanged — events, task_registry, agent_registry,
task_alias_map, agent_alias_map, completed_tasks, status, final_output,
and errors are exactly as before. -/
theorem out_of_run_isolation (s : RunState) (p : Payload)
    (h : p.run_id ≠ s.run_id) :
    process_event s p = s ∧
    (process_event s p).events = s.events ∧
    (process_event s p).task_registry = s.task_registry ∧
    (process_event s p).agent_registry = s.agent_registry ∧
    (process_event s p).task_alias_map = s.task_alias_map ∧
    (process_event s p).agent_alias_map = s.agent_alias_map ∧
    (process_event s p).completed_tasks = s.completed_tasks ∧
    (process_event s p).status = s.status ∧
    (process_event s p).final_output = s.final_output ∧
    (process_event s p).errors = s.errors := by
  have heq : process_event s p = s := by
    unfold process_event
    rw [if_pos h]
  exact ⟨heq, by rw [heq], by rw [heq], by rw [heq], by rw [heq], by rw [heq],
    by rw [heq], by rw [heq], by rw [heq], by rw [heq]⟩

/-- Witness for C6 at a concrete mismatched record. -/
theorem out_of_run_isolation_witness :
    process_event demoState
        { run_id := some "OTHER", ptype := some "task:started",
          source := "src", event := some [("task_id", .str "T1")] } =
      demoState := by
  exact (out_of_run_isolation demoState _ (by decide)).1

/-! ## Claim C9: progress cap -/

/-- C9: `progress_fraction` is `min(completed / EXPECTED_TASKS, cap)` with
cap `0.999` while the status is `"running"` and `1.0` once `"completed"`;
in particular four recorded completions while still running give `0.999`,
not `1.0`. -/
theorem progress_cap (s : RunState) :
    (s.status = "running" →
      progress_fraction s =
        min ((s.completed_tasks.length : ℚ) / (EXPECTED_TASKS : ℚ))
          (999 / 1000)) ∧
    (s.status = "completed" →
      progress_fraction s =
        min ((s.completed_tasks.length : ℚ) / (EXPECTED_TASKS : ℚ)) 1) ∧
    (s.status = "running" → s.completed_tasks.length = EXPECTED_TASKS →
      progress_fraction s = 999 / 1000 ∧ progress_fraction s ≠ 1) := by
  refine ⟨?_, ?_, ?_⟩
  · intro h
    unfold progress_fraction
    rw [h, if_neg (by decide), if_pos rfl]
  · intro h
    unfold progress_fraction
    rw [h, if_neg (by decide), if_neg (by decide)]
  · intro h hlen
    unfold progress_fraction
    rw [h, hlen, if_neg (by decide), if_pos rfl]
    constructor
    · unfold EXPECTED_TASKS
      norm_num
    · unfold EXPECTED_TASKS
      norm_num

/-- Witness for C9: four completions recorded while still running. -/
theorem progress_cap_witness :
    progress_fraction
        { demoState with completed_tasks := ["a", "b", "c", "d"] } =
      999 / 1000 := by
  exact ((progress_cap
    { demoState with completed_tasks := ["a", "b", "c", "d"] }).2.2
    rfl rfl).1

/-! ## Claim C5: tool signature derivation (refinement) -/

theorem firstNonEmptyStr_eq_filter (l : List Value) :
    firstNonEmptyStr l =
      (match l.filter isNonEmptyStrV with
       | v :: _ => strOf v
       | [] => "") := by
  induction l with
  | nil => rfl
  | cons v rest ih =>
      cases v with
      | str s =>
          by_cases h : s = ""
          · subst h
            simpa [firstNonEmptyStr, List.filter, isNonEmptyStrV] using ih
          · simp [firstNonEmptyStr, List.filter, isNonEmptyStrV, h, strOf]
      | null => simpa [firstNonEmptyStr, List.filter, isNonEmptyStrV] using ih
      | bool b => simpa [firstNonEmptyStr, List.filter, isNonEmptyStrV] using ih
      | num n => simpa [firstNonEmptyStr, List.filter, isNonEmptyStrV] using ih
      | arr xs => simpa [firstNonEmptyStr, List.filter, isNonEmptyStrV] using ih
      | obj kvs => simpa [firstNonEmptyStr, List.filter, isNonEmptyStrV] using ih

theorem isNoneEmptyOrZero_iff (v : Value) :
    isNoneEmptyOrZero v = true ↔
      (v = .null ∨ v = .str "" ∨ v = .num 0 ∨ v = .bool false) := by
  cases v <;> simp [isNoneEmptyOrZero]

theorem normalise_tool_args_eq_spec (d : EventData) :
    normalise_tool_args (getV d "tool_args") = specArgsRepr d := by
  unfold specArgsRepr
  cases hv : getV d "tool_args" with
  | null => rfl
  | str s =>
      simp only [normalise_tool_args]
      by_cases h : pyStrip s = ""
      · simp [h]
      · simp only [if_neg h]
        cases json_loads (pyStrip s) <;> simp
  | bool b => rfl
  | num n => rfl
  | arr xs => rfl
  | obj kvs => rfl

/-- C5: the derived tool signature is exactly the triple the spec describes
— first non-empty string among agent_id/agent_key/source_fingerprint, the
attempt counter as a string with absent/empty/zero defaulting to "1", and
the canonicalised argument representation. -/
theorem tool_signature_spec (d : EventData) :
    tool_signature d =
      (specAgentIdentifier d, specAttemptRepr d, specArgsRepr d) := by
  unfold tool_signature specAgentIdentifier specAttemptRepr
  refine Prod.ext ?_ (Prod.ext ?_ ?_)
  · simpa using firstNonEmptyStr_eq_filter
      [getV d "agent_id", getV d "agent_key", getV d "source_fingerprint"]
  · by_cases h : isNoneEmptyOrZero (getV d "run_attempts") = true
    · simp [h, (isNoneEmptyOrZero_iff _).mp h]
    · have h' := h
      rw [isNoneEmptyOrZero_iff] at h'
      simp only [eq_self_iff_true]
      rw [if_neg (by simpa using h), if_neg h']
  · simpa using normalise_tool_args_eq_spec d

/-! ## Claim C10: canonicalisation agreement -/

theorem json_loads_empty : json_loads "" = none := rfl

/-- C10: for a JSON-serialisable mapping or list `v`, normalising tool
arguments given as JSON text of `v` (any string that `json.loads` parses to
`v`) agrees with normalising `v` itself, and two tool events whose other
signature fields agree — one carrying the JSON text, one the parsed value —
derive equal signatures. -/
theorem canonicalisation_agreement (v : Value) (s : String)
    (d1 d2 : EventData)
    (hshape : (∃ kvs, v = .obj kvs) ∨ (∃ xs, v = .arr xs))
    (hparse : json_loads (pyStrip s) = some v)
    (h1 : getV d1 "tool_args" = .str s)
    (h2 : getV d2 "tool_args" = v)
    (hid : getV d1 "agent_id" = getV d2 "agent_id")
    (hkey : getV d1 "agent_key" = getV d2 "agent_key")
    (hfp : getV d1 "source_fingerprint" = getV d2 "source_fingerprint")
    (hatt : getV d1 "run_attempts" = getV d2 "run_attempts") :
    normalise_tool_args (.str s) = normalise_tool_args v ∧
    tool_signature d1 = tool_signature d2 := by
  have hne : pyStrip s ≠ "" := by
    intro h0
    rw [h0, json_loads_empty] at hparse
    exact Option.noConfusion hparse
  have hlhs : normalise_tool_args (.str s) = json_dumps_sorted v := by
    simp only [normalise_tool_args, if_neg hne, hparse]
  have hrhs : normalise_tool_args v = json_dumps_sorted v := by
    rcases hshape with ⟨kvs, rfl⟩ | ⟨xs, rfl⟩ <;> rfl
  refine ⟨hlhs.trans hrhs.symm, ?_⟩
  unfold tool_signature
  rw [hid, hkey, hfp, hatt, h1, h2, hlhs, hrhs]

/-- Witness for C10: `{"x": 1}` as JSON text and as the parsed mapping. -/
theorem canonicalisation_agreement_witness :
    normalise_tool_args (.str " \x7b\"x\": 1\x7d ") =
      normalise_tool_args (.obj [("x", .num 1)]) ∧
    tool_signature [("agent_id", .str "A"),
                    ("tool_args", .str " \x7b\"x\": 1\x7d ")] =
      tool_signature [("agent_id", .str "A"),
                      ("tool_args", .obj [("x", .num 1)])] := by
  exact canonicalisation_agreement (.obj [("x", .num 1)]) " \x7b\"x\": 1\x7d "
    [("agent_id", .str "A"), ("tool_args", .str " \x7b\"x\": 1\x7d ")]
    [("agent_id", .str "A"), ("tool_args", .obj [("x", .num 1)])]
    (Or.inl ⟨[("x", .num 1)], rfl⟩) (by decide) (by decide) (by decide)
    (by decide) (by decide) (by decide) (by decide)

/-! ## Claim C8: listener handler totality and single push -/

/-- C8: for every inbound `(source, event)` pair the built handler is a
total function (it never raises past its boundary — the library failures
are `Except` values it catches) and performs exactly one queue push: the
enriched serialised record on success, and on any internal failure a
`listener:error` record carrying the stringified exception, the original
event's type name, and a timestamp. -/
theorem listener_handler_single_push (rid et now : String) (src : SourceObj)
    (e : RawEvent) :
    (handler_pushes rid et now src e).length = 1 ∧
    (∀ data, serialise_event e = .ok data →
      handler_pushes rid et now src e =
        [{ run_id := some rid, ptype := some et,
           source := describe_source src,
           event := some (enrich_event e data) }]) ∧
    (∀ msg, serialise_event e = .error msg →
      handler_pushes rid et now src e =
        [{ run_id := some rid, ptype := some "listener:error",
           source := describe_source src,
           event := some [("error", .str msg),
                          ("event_type", .str e.typeName),
                          ("timestamp", .str now)] }]) := by
  refine ⟨rfl, ?_, ?_⟩
  · intro data h
    simp [handler_pushes, handler_record, h]
  · intro msg h
    simp [handler_pushes, handler_record, h]

/-- Witness for C8: a successfully serialised event and a failing one. -/
theorem listener_handler_single_push_witness :
    handler_pushes "r" "task:started" "now"
        ⟨"Agent", some (.str "Analyst"), none, false⟩
        ⟨"TaskStartedEvent", none, .ok (.obj [("x", .num 1)]), none, none⟩ =
      [{ run_id := some "r", ptype := some "task:started",
         source := "Agent(Analyst)",
         event := some [("x", .num 1),
                        ("event_type", .str "TaskStartedEvent")] }] ∧
    handler_pushes "r" "task:started" "now"
        ⟨"Agent", none, none, false⟩
        ⟨"TaskStartedEvent", none, .error "boom", none, none⟩ =
      [{ run_id := some "r", ptype := some "listener:error",
         source := "Agent",
         event := some [("error", .str "boom"),
                        ("event_type", .str "TaskStartedEvent"),
                        ("timestamp", .str "now")] }] := by
  constructor
  · have h := (listener_handler_single_push "r" "task:started" "now"
      ⟨"Agent", some (.str "Analyst"), none, false⟩
      ⟨"TaskStartedEvent", none, .ok (.obj [("x", .num 1)]), none, none⟩).2.1
      [("x", .num 1), ("event_type", .str "TaskStartedEvent")] rfl
    simpa [enrich_event, describe_source, pyStr, truthy] using h
  · have h := (listener_handler_single_push "r" "task:started" "now"
      ⟨"Agent", none, none, false⟩
      ⟨"TaskStartedEvent", none, .error "boom", none, none⟩).2.2 "boom" rfl
    simpa [describe_source] using h

/-! ## Claim C4: output fragment merge policy -/

/-- C4 counterexample: the fragment `" "` is not emptyish (`" " != ""`), its
trimmed content `""` is a substring of the last fragment `"Hello"`, yet the
code appends it instead of leaving the list unchanged (the source requires
the trimmed content to be non-empty before the substring rule applies). -/
theorem output_fragment_merge_counterexample :
    ¬ ((merge_agent_output ⟨[.str "Hello"], some (.str "Hello")⟩
          (.str " ")).output_fragments = [.str "Hello"]) := by
  decide

/-- C4 as amended: an emptyish fragment (equal to `None` or `""`) is
ignored; a fragment equal to the last, or whose **non-empty** trimmed
content is a substring of the last fragment, leaves the list unchanged; a
fragment of which the last fragment's **non-empty** trimmed content is a
substring replaces the last fragment in place; otherwise the fragment is
appended.  `"Hello"` then `"Hello world"` merges to `"Hello world"`, and
for all-string fragment lists the visible output joins the non-empty
fragments with a blank line. -/
theorem output_fragment_merge_amended (st : MergeState) (v : Value) :
    (isNoneOrEmptyStr v = true → merge_agent_output st v = st) ∧
    (st.output_fragments.getLast? = some v →
      (merge_agent_output st v).output_fragments = st.output_fragments) ∧
    (∀ l n, st.output_fragments.getLast? = some (.str l) → v = .str n →
      pyStrip n ≠ "" → strContains l (pyStrip n) = true →
      (merge_agent_output st v).output_fragments = st.output_fragments) ∧
    (∀ l n, st.output_fragments.getLast? = some (.str l) → v = .str n →
      n ≠ "" → Value.str l ≠ v →
      (pyStrip n = "" ∨ strContains l (pyStrip n) = false) →
      pyStrip l ≠ "" → strContains n (pyStrip l) = true →
      (merge_agent_output st v).output_fragments =
        st.output_fragments.dropLast ++ [v]) ∧
    (isNoneOrEmptyStr v = false → st.output_fragments.getLast? = none →
      (merge_agent_output st v).output_fragments =
        st.output_fragments ++ [v]) ∧
    (∀ lf, isNoneOrEmptyStr v = false →
      st.output_fragments.getLast? = some lf → lf ≠ v →
      (∀ l n, lf = .str l → v = .str n →
        (pyStrip n = "" ∨ strContains l (pyStrip n) = false) ∧
        (pyStrip l = "" ∨ strContains n (pyStrip l) = false)) →
      (merge_agent_output st v).output_fragments =
        st.output_fragments ++ [v]) ∧
    (∀ fs : List Value, fs.all isStrV = true →
      serialise_agent_output fs =
        .str (String.intercalate "\n\n" (fs.filterMap (fun f =>
          match f with
          | .str s => if s = "" then none else some s
          | _ => none)))) ∧
    (merge_agent_output ⟨[.str "Hello"], some (.str "Hello")⟩
        (.str "Hello world") =
      ⟨[.str "Hello world"], some (.str "Hello world")⟩) := by
  refine ⟨?_, ?_, ?_, ?_, ?_, ?_, ?_, by decide⟩
  · intro h
    simp [merge_agent_output, h]
  · intro h
    by_cases hv : isNoneOrEmptyStr v = true
    · simp [merge_agent_output, hv]
    · simp only [Bool.not_eq_true] at hv
      simp [merge_agent_output, hv, h]
  · intro l n h1 hvn hn hc
    subst hvn
    have hne : n ≠ "" := fun h0 => hn (by rw [h0]; rfl)
    have hv : isNoneOrEmptyStr (.str n) = false := by
      simpa [isNoneOrEmptyStr] using hne
    by_cases heq : (Value.str l) = .str n
    · simp [merge_agent_output, hv, h1, heq]
    · simp [merge_agent_output, hv, h1, heq, hn, hc]
  · intro l n h1 hvn hne hlv hnsub hl hc
    subst hvn
    have hv : isNoneOrEmptyStr (.str n) = false := by
      simpa [isNoneOrEmptyStr] using hne
    have hfail : ¬ (pyStrip n ≠ "" ∧ strContains l (pyStrip n) = true) := by
      rcases hnsub with h | h
      · exact fun hh => hh.1 h
      · exact fun hh => by rw [h] at hh; exact Bool.noConfusion hh.2
    simp [merge_agent_output, hv, h1, hlv, hfail, hl, hc]
  · intro hv h
    simp [merge_agent_output, hv, h]
  · intro lf hv h1 hne hguards
    cases lf with
    | str l =>
        cases v with
        | str n =>
            have hg := hguards l n rfl rfl
            have hfail1 : ¬ (pyStrip n ≠ "" ∧ strContains l (pyStrip n) = true) := by
              rcases hg.1 with h | h
              · exact fun hh => hh.1 h
              · exact fun hh => by rw [h] at hh; exact Bool.noConfusion hh.2
            have hfail2 : ¬ (pyStrip l ≠ "" ∧ strContains n (pyStrip l) = true) := by
              rcases hg.2 with h | h
              · exact fun hh => hh.1 h
              · exact fun hh => by rw [h] at hh; exact Bool.noConfusion hh.2
            simp [merge_agent_output, hv, h1, hne, hfail1, hfail2]
        | null => simp [merge_agent_output, hv, h1, hne]
        | bool b => simp [merge_agent_output, hv, h1, hne]
        | num m => simp [merge_agent_output, hv, h1, hne]
        | arr xs => simp [merge_agent_output, hv, h1, hne]
        | obj kvs => simp [merge_agent_output, hv, h1, hne]
    | null => simp [merge_agent_output, hv, h1, hne]
    | bool b => simp [merge_agent_output, hv, h1, hne]
    | num m => simp [merge_agent_output, hv, h1, hne]
    | arr xs => simp [merge_agent_output, hv, h1, hne]
    | obj kvs => simp [merge_agent_output, hv, h1, hne]
  · intro fs h
    simp [serialise_agent_output, h]

/-- Witness for C4 (amended): the subset rule with a non-empty trimmed
fragment leaves the list unchanged, and the superset rule grows in place. -/
theorem output_fragment_merge_amended_witness :
    (merge_agent_output ⟨[.str "Hello world"], some (.str "Hello world")⟩
        (.str " world ")).output_fragments = [.str "Hello world"] ∧
    (merge_agent_output ⟨[.str "Hello"], some (.str "Hello")⟩
        (.str "Hello world")).output_fragments = [.str "Hello world"] := by
  constructor
  · exact (output_fragment_merge_amended
      ⟨[.str "Hello world"], some (.str "Hello world")⟩ (.str " world ")).2.2.1
      "Hello world" " world " rfl rfl (by decide) (by decide)
  · have h := (output_fragment_merge_amended
      ⟨[.str "Hello"], some (.str "Hello")⟩ (.str "Hello world")).2.2.2.1
      "Hello" "Hello world" rfl rfl (by decide) (by decide)
      (Or.inr (by decide)) (by decide) (by decide)
    simpa using h

/-! ## Claim C3: sequential tool invocations -/

/-- C3 counterexample: two `tool:started`/`tool:finished` pairs with the
identical signature, separated by the first pair's terminal event, do NOT
produce two distinct ToolEntries — the exact-signature scan of
`_find_matching_tool_entry` carries no status filter, so the second
`tool:started` re-binds to the closed entry and all four events collapse
into one ToolEntry. -/
theorem distinct_invocations_counterexample :
    (c3FinalState.agent_registry.map
        (fun kv => (kv.1, (akeys kv.2.tools).length)) = [("t1:A", 1)]) ∧
    ¬ ((alookup c3FinalState.agent_registry "t1:A").map
        (fun e => (akeys e.tools).length) = some 2) := by
  constructor
  · decide
  · decide

/-- C3 as amended: the terminal event does remove the active-signature
mapping, but a later event with an identical signature re-binds to the same
(closed) ToolEntry via the exact-signature scan, so sequential reuse IS
merged: after started/finished the single entry is completed and the active
map is empty; the second identical started re-opens that same entry
(`tool-1`, running again, no new entry); the final state holds exactly one
ToolEntry with four history records. -/
theorem distinct_invocations_amended :
    ((alookup c3AfterTwo.agent_registry "t1:A").map
        (fun e => (akeys e.tools, e.tools.map (fun kv => kv.2.status),
                   e.tool_active_map.length)) =
      some (["tool-1"], ["completed"], 0)) ∧
    ((alookup c3AfterThree.agent_registry "t1:A").map
        (fun e => (akeys e.tools, e.tools.map (fun kv => kv.2.status))) =
      some (["tool-1"], ["running"])) ∧
    ((alookup c3FinalState.agent_registry "t1:A").map
        (fun e => (akeys e.tools,
                   e.tools.map (fun kv => (kv.2.status, kv.2.history.length)),
                   e.tool_active_map.length)) =
      some (["tool-1"], [("completed", 4)], 0)) := by
  refine ⟨?_, ?_, ?_⟩ <;> decide

/-! ## Claim C2: alias convergence for tasks -/

/-- C2: in any state where the normalised alias `"t1"` is registered to a
task id with a live registry entry (as a processed `task:started` carrying
`task_id="T1"` leaves it), a `task:completed` event carrying only
`task_name="T1"` resolves to the same entry, marks it `completed`, and
creates no new TaskEntry; concretely, `task:started(task_id="T1")` then
`task:completed(task_name="T1")` from a fresh run leaves exactly one
TaskEntry, with status `"completed"`. -/
theorem alias_convergence_tasks (s : RunState) (tid : String)
    (h1 : alookup s.task_alias_map "t1" = some tid)
    (h2 : (alookup s.task_registry tid).isSome) :
    (update_task_registry "task:completed"
        [("task_name", .str "T1"), ("timestamp", .str "t1")] s).1
      = some tid ∧
    (∃ e', (update_task_registry "task:completed"
        [("task_name", .str "T1"), ("timestamp", .str "t1")] s).2.1
      = some e' ∧ e'.status = "completed") ∧
    akeys (update_task_registry "task:completed"
        [("task_name", .str "T1"), ("timestamp", .str "t1")] s).2.2.task_registry
      = akeys s.task_registry ∧
    ((process_event (process_event demoState taskStartedT1)
        taskCompletedNameT1).task_registry.map
        (fun kv => (kv.1, kv.2.status)) = [("T1", "completed")]) := by
  obtain ⟨e0, he0⟩ := Option.isSome_iff_exists.mp h2
  have hhit : findAliasHit s.task_alias_map
      (taskAliasCandidates
        [("task_name", .str "T1"), ("timestamp", .str "t1")]) = some tid := by
    have hc : taskAliasCandidates
        [("task_name", .str "T1"), ("timestamp", .str "t1")] = ["T1"] := by
      decide
    rw [hc]
    simp only [findAliasHit]
    rw [show normalise_alias (.str "T1") = some "t1" from rfl]
    simp [h1]
  have hres : resolveTaskId "task:completed"
      [("task_name", .str "T1"), ("timestamp", .str "t1")] s
        = some (tid, s.fresh) := by
    simp only [resolveTaskId, hhit]
  refine ⟨?_, ?_, ?_, by decide⟩
  · simp only [update_task_registry, hres]
    rfl
  · simp only [update_task_registry, hres]
    exact ⟨_, rfl, rfl⟩
  · simp only [update_task_registry, hres]
    show akeys (ainsert s.task_registry tid _) = akeys s.task_registry
    exact akeys_ainsert_of_isSome _ _ _ h2

/-- Witness for C2: the two-event scenario itself discharges the
hypotheses. -/
theorem alias_convergence_tasks_witness :
    (update_task_registry "task:completed"
        [("task_name", .str "T1"), ("timestamp", .str "t1")]
        (process_event demoState taskStartedT1)).1 = some "T1" := by
  exact (alias_convergence_tasks (process_event demoState taskStartedT1)
    "T1" (by decide) (by decide)).1

/-! ## Structural lemmas about the update functions -/

theorem taskEventEntry_task_id (et : String) (d : EventData) (s : RunState)
    (tid : String) : (taskEventEntry et d s tid).task_id = tid := by
  unfold taskEventEntry
  dsimp only
  repeat' split
  all_goals rfl

theorem update_tool_usage_run_key (a : AgentEntry) (et : String)
    (d : EventData) : (update_tool_usage a et d).run_key = a.run_key := by
  unfold update_tool_usage
  dsimp only

theorem update_tool_usage_task_id (a : AgentEntry) (et : String)
    (d : EventData) : (update_tool_usage a et d).task_id = a.task_id := by
  unfold update_tool_usage
  dsimp only

theorem agentEventEntry_run_key (et : String) (d : EventData) (tid : String)
    (res : AgentResolution) :
    (agentEventEntry et d tid res).run_key = res.runKeyVar := by
  unfold agentEventEntry
  dsimp only
  split
  · rw [update_tool_usage_run_key]
    repeat' split
    all_goals rfl
  · repeat' split
    all_goals rfl

theorem build_agent_run_key_ne_empty (tid : String) (d : EventData)
    (fresh : Nat) : (build_agent_run_key tid d fresh).1 ≠ "" := by
  unfold build_agent_run_key
  dsimp only
  repeat' split
  all_goals exact append_colon_ne_empty _ _

/-- The alias path of agent resolution only accepts a truthy candidate key
with a live registry entry. -/
theorem aliasHitAgent_some (ta : List (String × String))
    (registry : List (String × AgentEntry)) :
    ∀ (l : List String) (k : String) (e : AgentEntry),
      aliasHitAgent ta registry l = some (k, e) →
      k ≠ "" ∧ alookup registry k = some e := by
  intro l
  induction l with
  | nil => intro k e h; exact absurd h (by simp [aliasHitAgent])
  | cons a rest ih =>
      intro k e h
      simp only [aliasHitAgent] at h
      rcases hna : normalise_alias (.str a) with _ | key <;>
        simp only [hna] at h
      · exact ih k e h
      · rcases hck : alookup ta key with _ | ck <;> simp only [hck] at h
        · exact ih k e h
        · by_cases hcke : ck ≠ ""
          · rw [if_pos hcke] at h
            rcases hreg : alookup registry ck with _ | e' <;>
              simp only [hreg] at h
            · exact ih k e h
            · obtain ⟨rfl, rfl⟩ : ck = k ∧ e' = e := by
                constructor <;> cases h <;> rfl
              exact ⟨hcke, hreg⟩
          · rw [if_neg hcke] at h
            exact ih k e h

theorem singleCandidateAgent_props (registry : List (String × AgentEntry))
    (tid : String) (k rk : String) (e : AgentEntry)
    (hinv : ∀ kv ∈ registry, (kv.2).run_key = kv.1 ∧ kv.1 ≠ "")
    (h : singleCandidateAgent registry tid = some (k, rk, e)) :
    k = rk ∧ rk ≠ "" := by
  unfold singleCandidateAgent at h
  rcases hf : registry.filter (fun kv => decide (kv.2.task_id = tid)) with
    _ | ⟨⟨k0, e0⟩, rest⟩ <;> rw [hf] at h
  · exact absurd h (by simp)
  · cases rest with
    | cons _ _ => exact absurd h (by simp)
    | nil =>
        dsimp only at h
        by_cases hrk : e0.run_key ≠ ""
        · rw [if_pos hrk] at h
          obtain ⟨rfl, rfl, rfl⟩ : k0 = k ∧ e0.run_key = rk ∧ e0 = e := by
            refine ⟨?_, ?_, ?_⟩ <;> cases h <;> rfl
          have hmem : (k0, e0) ∈ registry :=
            List.mem_of_mem_filter (by rw [hf]; exact List.mem_singleton.mpr rfl)
          obtain ⟨hk, hne⟩ := hinv _ hmem
          exact ⟨hk.symm, by rwa [hk]⟩
        · rw [if_neg hrk] at h
          exact absurd h (by simp)

/-- Under the agent-registry invariant, resolution always lands on a
non-empty run key that coincides with the storage key the in-place
mutations hit. -/
theorem resolveAgent_keys (d : EventData) (tid : String)
    (registry : List (String × AgentEntry))
    (ta : List (String × String)) (fresh : Nat)
    (hinv : ∀ kv ∈ registry, (kv.2).run_key = kv.1 ∧ kv.1 ≠ "") :
    (resolveAgent d tid registry ta fresh).foundKey =
      (resolveAgent d tid registry ta fresh).runKeyVar ∧
    (resolveAgent d tid registry ta fresh).runKeyVar ≠ "" := by
  rcases h1 : aliasHitAgent ta registry (agentAliasCandidates d) with _ | ⟨k, e⟩
  · rcases h2 : scanAgents registry d tid with _ | ⟨k, e⟩
    · rcases h3 : singleCandidateAgent registry tid with _ | ⟨k, rk, e⟩
      · rcases hb : build_agent_run_key tid d fresh with ⟨rk, f'⟩
        have hne : rk ≠ "" := by
          have := build_agent_run_key_ne_empty tid d fresh
          rwa [hb] at this
        rcases h4 : alookup registry rk with _ | e
        · simp only [resolveAgent, h1, h2, h3, hb, h4]
          exact ⟨trivial, hne⟩
        · simp only [resolveAgent, h1, h2, h3, hb, h4]
          exact ⟨trivial, hne⟩
      · simp only [resolveAgent, h1, h2, h3]
        exact singleCandidateAgent_props registry tid k rk e hinv h3
    · have hmem : (k, e) ∈ registry :=
        List.mem_of_find?_eq_some (by simpa [scanAgents] using h2)
      simp only [resolveAgent, h1, h2]
      exact ⟨trivial, (hinv _ hmem).2⟩
  · have hk := (aliasHitAgent_some ta registry _ k e h1).1
    simp only [resolveAgent, h1]
    exact ⟨trivial, hk⟩

/-! ## Tool-usage lemmas: the touched entry carries the signature, and a
matching entry prevents creation -/

theorem find_matching_mem (tools : List (String × ToolEntry)) (sig : Sig)
    (d : EventData) (k : String) (e : ToolEntry)
    (h : find_matching_tool_entry tools sig d = some (k, e)) :
    (k, e) ∈ tools := by
  unfold find_matching_tool_entry at h
  rcases h1 : tools.find? (fun kv => decide (kv.2.signature = sig)) with _ | kv <;>
    simp only [h1] at h
  · rcases h2 : tools.find? (fun kv =>
        decide (kv.2.name = pyOr (getV d "tool_name") (.str "")) &&
        statusPendingOrRunning kv.2.status) with _ | kv <;>
      simp only [h2] at h
    · exact List.mem_of_find?_eq_some h
    · obtain rfl : kv = (k, e) := Option.some.inj h
      exact List.mem_of_find?_eq_some h2
  · obtain rfl : kv = (k, e) := Option.some.inj h
    exact List.mem_of_find?_eq_some h1

theorem find_matching_some_of_sig (tools : List (String × ToolEntry))
    (sig : Sig) (d : EventData) (k : String) (te : ToolEntry)
    (hl : alookup tools k = some te) (hs : te.signature = sig) :
    ∃ ke, find_matching_tool_entry tools sig d = some ke := by
  have hsome : (tools.find? (fun kv => decide (kv.2.signature = sig))).isSome :=
    List.find?_isSome.mpr
      ⟨(k, te), mem_of_alookup_eq_some _ _ _ hl, by simp [hs]⟩
  unfold find_matching_tool_entry
  rcases hf : tools.find? (fun kv => decide (kv.2.signature = sig)) with _ | kv
  · rw [hf] at hsome; exact absurd hsome (by simp)
  · exact ⟨kv, by simp [hf]⟩

theorem toolEventEntry_signature (e0 : ToolEntry) (sig : Sig) (et : String)
    (d : EventData) : (toolEventEntry e0 sig et d).signature = sig := by
  unfold toolEventEntry
  dsimp only
  repeat' split
  all_goals rfl

theorem update_tool_usage_tools (a : AgentEntry) (et : String)
    (d : EventData) :
    (update_tool_usage a et d).tools =
      ainsert (toolEntrySelection a et d).2.2.2.1 (toolEntrySelection a et d).1
        (toolEventEntry (toolEntrySelection a et d).2.2.1 (tool_signature d)
          et d) := rfl

/-- After any tool event, the touched entry is stored and carries the
event's signature. -/
theorem update_tool_usage_sig (a : AgentEntry) (et : String) (d : EventData) :
    ∃ k te, alookup (update_tool_usage a et d).tools k = some te ∧
      te.signature = tool_signature d := by
  refine ⟨(toolEntrySelection a et d).1,
    toolEventEntry (toolEntrySelection a et d).2.2.1 (tool_signature d) et d,
    ?_, toolEventEntry_signature _ _ _ _⟩
  rw [update_tool_usage_tools]
  exact alookup_ainsert_self _ _ _

/-- When some stored entry already carries the event's signature, selection
reuses a stored entry (no creation): the tools dict is returned unchanged
and the storage key is live. -/
theorem toolEntrySelection_found (a : AgentEntry) (et : String)
    (d : EventData)
    (hsig : ∃ k te, alookup a.tools k = some te ∧
      te.signature = tool_signature d) :
    (toolEntrySelection a et d).2.2.2.1 = a.tools ∧
    (alookup a.tools (toolEntrySelection a et d).1).isSome := by
  obtain ⟨k0, te0, hl0, hs0⟩ := hsig
  obtain ⟨⟨kf, ef⟩, hf⟩ :=
    find_matching_some_of_sig a.tools (tool_signature d) d k0 te0 hl0 hs0
  have hfmem : (alookup a.tools kf).isSome := by
    have := find_matching_mem _ _ _ _ _ hf
    simpa using alookup_isSome_of_mem _ _ this
  unfold toolEntrySelection
  dsimp only
  rcases hA : alookup a.tool_active_map (tool_signature d) with _ | ak <;>
    simp only [hA, hf]
  · exact ⟨trivial, hfmem⟩
  · by_cases hak : ak ≠ ""
    · rw [if_pos hak]
      rcases hT : alookup a.tools ak with _ | e <;> simp only [hT, hf]
      · exact ⟨trivial, hfmem⟩
      · exact ⟨trivial, by simp [hT]⟩
    · rw [if_neg hak]
      simp only [hf]
      exact ⟨trivial, hfmem⟩

/-- Replaying when a matching-signature entry exists creates no new
ToolEntry. -/
theorem update_tool_usage_keys (a : AgentEntry) (et : String) (d : EventData)
    (hsig : ∃ k te, alookup a.tools k = some te ∧
      te.signature = tool_signature d) :
    akeys (update_tool_usage a et d).tools = akeys a.tools := by
  obtain ⟨hto, hiso⟩ := toolEntrySelection_found a et d hsig
  rw [update_tool_usage_tools, hto]
  exact akeys_ainsert_of_isSome _ _ _ hiso

/-! ## Frame, monotonicity, and invariant lemmas for the two registries -/

theorem update_task_frame (et : String) (d : EventData) (s : RunState) :
    (update_task_registry et d s).2.2.agent_registry = s.agent_registry ∧
    (update_task_registry et d s).2.2.agent_alias_map = s.agent_alias_map ∧
    (update_task_registry et d s).2.2.run_id = s.run_id ∧
    (update_task_registry et d s).2.2.status = s.status ∧
    (update_task_registry et d s).2.2.completed_tasks = s.completed_tasks ∧
    (update_task_registry et d s).2.2.events = s.events := by
  rcases h : resolveTaskId et d s with _ | ⟨tid, f'⟩ <;>
    simp [update_task_registry, h, applyTaskEvent]

theorem update_agent_frame (et : String) (d : EventData) (t0 : Option String)
    (s : RunState) :
    (update_agent_registry et d t0 s).2.task_registry = s.task_registry ∧
    (update_agent_registry et d t0 s).2.task_alias_map = s.task_alias_map ∧
    (update_agent_registry et d t0 s).2.run_id = s.run_id ∧
    (update_agent_registry et d t0 s).2.status = s.status ∧
    (update_agent_registry et d t0 s).2.completed_tasks = s.completed_tasks ∧
    (update_agent_registry et d t0 s).2.events = s.events := by
  unfold update_agent_registry
  split
  · exact ⟨rfl, rfl, rfl, rfl, rfl, rfl⟩
  · dsimp only
    split
    · exact ⟨rfl, rfl, rfl, rfl, rfl, rfl⟩
    · exact ⟨rfl, rfl, rfl, rfl, rfl, rfl⟩

theorem update_task_keys_mono (et : String) (d : EventData) (s : RunState)
    (k : String) (h : (alookup s.task_registry k).isSome) :
    (alookup (update_task_registry et d s).2.2.task_registry k).isSome := by
  rcases hr : resolveTaskId et d s with _ | ⟨tid, f'⟩ <;>
    simp only [update_task_registry, hr]
  · exact h
  · exact alookup_isSome_ainsert _ _ _ _ h

theorem update_agent_keys_mono (et : String) (d : EventData)
    (t0 : Option String) (s : RunState) (k : String)
    (h : (alookup s.agent_registry k).isSome) :
    (alookup (update_agent_registry et d t0 s).2.agent_registry k).isSome := by
  unfold update_agent_registry
  split
  · exact h
  · dsimp only
    split
    · exact h
    · exact alookup_isSome_ainsert _ _ _ _ h

theorem update_task_inv (et : String) (d : EventData) (s : RunState)
    (hinv : ∀ kv ∈ s.task_registry, (kv.2).task_id = kv.1) :
    ∀ kv ∈ (update_task_registry et d s).2.2.task_registry,
      (kv.2).task_id = kv.1 := by
  rcases hr : resolveTaskId et d s with _ | ⟨tid, f'⟩ <;>
    simp only [update_task_registry, hr]
  · exact hinv
  · intro kv hm
    rcases mem_ainsert _ _ _ _ hm with rfl | hm'
    · exact taskEventEntry_task_id et d s tid
    · exact hinv _ hm'

theorem update_agent_inv (et : String) (d : EventData) (t0 : Option String)
    (s : RunState)
    (hinv : ∀ kv ∈ s.agent_registry, (kv.2).run_key = kv.1 ∧ kv.1 ≠ "") :
    ∀ kv ∈ (update_agent_registry et d t0 s).2.agent_registry,
      (kv.2).run_key = kv.1 ∧ kv.1 ≠ "" := by
  unfold update_agent_registry
  split
  · exact hinv
  · dsimp only
    split
    · exact hinv
    · rename_i task_id heq
      intro kv hm
      obtain ⟨hfk, hne⟩ :=
        resolveAgent_keys d task_id s.agent_registry _ s.fresh hinv
      rcases mem_ainsert _ _ _ _ hm with rfl | hm'
      · exact ⟨by rw [agentEventEntry_run_key]; exact hfk.symm,
          by rw [hfk]; exact hne⟩
      · exact hinv _ hm'

/-! ## process_event-level registry lemmas -/

theorem finalStage_frame (et : String) (d : EventData) (k? : Option String)
    (st : RunState) :
    (finalStage et d k? st).task_registry = st.task_registry ∧
    (finalStage et d k? st).agent_registry = st.agent_registry ∧
    (finalStage et d k? st).task_alias_map = st.task_alias_map ∧
    (finalStage et d k? st).agent_alias_map = st.agent_alias_map ∧
    (finalStage et d k? st).run_id = st.run_id := by
  unfold finalStage
  repeat' split
  all_goals exact ⟨rfl, rfl, rfl, rfl, rfl⟩

theorem attachStage_frame (a? : Option AgentEntry) (t? : Option TaskEntry)
    (tid? : Option String) (st : RunState) :
    (attachStage a? t? tid? st).agent_registry = st.agent_registry ∧
    (attachStage a? t? tid? st).task_alias_map = st.task_alias_map ∧
    (attachStage a? t? tid? st).agent_alias_map = st.agent_alias_map ∧
    (attachStage a? t? tid? st).run_id = st.run_id := by
  unfold attachStage
  repeat' split
  all_goals exact ⟨rfl, rfl, rfl, rfl⟩

theorem attachStage_task_mono (a? : Option AgentEntry) (t? : Option TaskEntry)
    (tid? : Option String) (st : RunState) (k : String)
    (h : (alookup st.task_registry k).isSome) :
    (alookup (attachStage a? t? tid? st).task_registry k).isSome := by
  unfold attachStage
  repeat' split
  all_goals first
    | exact h
    | exact alookup_isSome_ainsert _ _ _ _ h

theorem attachStage_task_inv (a? : Option AgentEntry) (t? : Option TaskEntry)
    (tid? : Option String) (st : RunState)
    (hinv : ∀ kv ∈ st.task_registry, (kv.2).task_id = kv.1)
    (hte : ∀ t tid, t? = some t → tid? = some tid → t.task_id = tid) :
    ∀ kv ∈ (attachStage a? t? tid? st).task_registry,
      (kv.2).task_id = kv.1 := by
  rcases a? with _ | a
  · exact hinv
  · rcases t? with _ | t
    · exact hinv
    · rcases tid? with _ | tid
      · exact hinv
      · intro kv hm
        rcases mem_ainsert _ _ _ _ hm with rfl | hm'
        · exact hte t tid rfl rfl
        · exact hinv _ hm'

theorem update_task_entry_id (et : String) (d : EventData) (s : RunState)
    (tid : String) (t : TaskEntry)
    (h1 : (update_task_registry et d s).1 = some tid)
    (h2 : (update_task_registry et d s).2.1 = some t) :
    t.task_id = tid := by
  rcases hr : resolveTaskId et d s with _ | ⟨tid', f'⟩ <;>
    simp only [update_task_registry, hr] at h1 h2
  · exact absurd h1 (by simp [applyTaskEvent])
  · simp only [applyTaskEvent, Option.some.injEq] at h1 h2
    rw [← h2, h1]
    exact taskEventEntry_task_id et d s tid

/-- When a `tool:`/`agent:` event attaches an entry, the attached task entry
resolves to the resolved task id (directly from the update, or — on the
dead refetch path — from the registry under the invariant). -/
theorem taskEntry1_id (et : String) (d : EventData) (s1 : RunState)
    (hinv1 : ∀ kv ∈ (update_task_registry et d s1).2.2.task_registry,
      (kv.2).task_id = kv.1) :
    ∀ t tid,
      (match (update_task_registry et d s1).2.1,
          (update_task_registry et d s1).1 with
        | none, some tid' =>
            if tid' ≠ "" then
              alookup (update_task_registry et d s1).2.2.task_registry tid'
            else none
        | te, _ => te) = some t →
      (update_task_registry et d s1).1 = some tid → t.task_id = tid := by
  intro t tid hmatch htid
  rcases hte : (update_task_registry et d s1).2.1 with _ | t0
  · rw [hte, htid] at hmatch
    dsimp only at hmatch
    by_cases htz : tid ≠ ""
    · rw [if_pos htz] at hmatch
      exact hinv1 _ (mem_of_alookup_eq_some _ _ _ hmatch)
    · rw [if_neg htz] at hmatch
      exact Option.noConfusion hmatch
  · rw [hte] at hmatch
    have ht0 : t0 = t := by
      rcases htid' : (update_task_registry et d s1).1 with _ | x <;>
        rw [htid'] at hmatch <;> exact Option.some.inj hmatch
    rw [← ht0]
    exact update_task_entry_id et d s1 tid t0 htid hte

theorem process_event_task_mono (s : RunState) (p : Payload) (k : String)
    (h : (alookup s.task_registry k).isSome) :
    (alookup (process_event s p).task_registry k).isSome := by
  unfold process_event
  split
  · exact h
  · dsimp only
    rw [(finalStage_frame _ _ _ _).1]
    apply attachStage_task_mono
    rw [(update_agent_frame _ _ _ _).1]
    exact update_task_keys_mono _ _ _ _ h

theorem process_event_agent_mono (s : RunState) (p : Payload) (k : String)
    (h : (alookup s.agent_registry k).isSome) :
    (alookup (process_event s p).agent_registry k).isSome := by
  unfold process_event
  split
  · exact h
  · dsimp only
    rw [(finalStage_frame _ _ _ _).2.1, (attachStage_frame _ _ _ _).1]
    apply update_agent_keys_mono
    rw [(update_task_frame _ _ _).1]
    exact h

theorem process_event_task_inv (s : RunState) (p : Payload)
    (hinv : ∀ kv ∈ s.task_registry, (kv.2).task_id = kv.1) :
    ∀ kv ∈ (process_event s p).task_registry, (kv.2).task_id = kv.1 := by
  unfold process_event
  split
  · exact hinv
  · dsimp only
    rw [(finalStage_frame _ _ _ _).1]
    apply attachStage_task_inv
    · rw [(update_agent_frame _ _ _ _).1]
      exact update_task_inv _ _ _ hinv
    · exact taskEntry1_id _ _ _ (update_task_inv _ _ _ hinv)

theorem process_event_agent_inv (s : RunState) (p : Payload)
    (hinv : ∀ kv ∈ s.agent_registry, (kv.2).run_key = kv.1 ∧ kv.1 ≠ "") :
    ∀ kv ∈ (process_event s p).agent_registry,
      (kv.2).run_key = kv.1 ∧ kv.1 ≠ "" := by
  unfold process_event
  split
  · exact hinv
  · dsimp only
    rw [(finalStage_frame _ _ _ _).2.1, (attachStage_frame _ _ _ _).1]
    apply update_agent_inv
    rw [(update_task_frame _ _ _).1]
    exact hinv

/-! ## Claim C7: identity stability invariant -/

/-- C7: processing any event preserves the registry invariants — entries are
never destroyed (key lookups stay live), each entry's assigned `task_id`
(resp. `run_key`) never changes, and the alias maps are many-to-one (each
normalised alias resolves to at most one identity at any time). -/
theorem identity_stability (s : RunState) (p : Payload) :
    (∀ k, (alookup s.task_registry k).isSome →
      (alookup (process_event s p).task_registry k).isSome) ∧
    (∀ k, (alookup s.agent_registry k).isSome →
      (alookup (process_event s p).agent_registry k).isSome) ∧
    (RegInv s → RegInv (process_event s p)) ∧
    (RegInv s → ∀ k e e', alookup s.task_registry k = some e →
      alookup (process_event s p).task_registry k = some e' →
      e'.task_id = e.task_id) ∧
    (RegInv s → ∀ k e e', alookup s.agent_registry k = some e →
      alookup (process_event s p).agent_registry k = some e' →
      e'.run_key = e.run_key) ∧
    (∀ a t1 t2, alookup (process_event s p).task_alias_map a = some t1 →
      alookup (process_event s p).task_alias_map a = some t2 → t1 = t2) ∧
    (∀ tid m a r1 r2,
      alookup (process_event s p).agent_alias_map tid = some m →
      alookup m a = some r1 → alookup m a = some r2 → r1 = r2) := by
  refine ⟨process_event_task_mono s p, process_event_agent_mono s p,
    fun hi => ⟨process_event_task_inv s p hi.1, process_event_agent_inv s p hi.2⟩,
    ?_, ?_, ?_, ?_⟩
  · intro hi k e e' he he'
    have h1 : e.task_id = k := hi.1 _ (mem_of_alookup_eq_some _ _ _ he)
    have h2 : e'.task_id = k :=
      process_event_task_inv s p hi.1 _ (mem_of_alookup_eq_some _ _ _ he')
    rw [h1, h2]
  · intro hi k e e' he he'
    have h1 : e.run_key = k := (hi.2 _ (mem_of_alookup_eq_some _ _ _ he)).1
    have h2 : e'.run_key = k :=
      (process_event_agent_inv s p hi.2 _ (mem_of_alookup_eq_some _ _ _ he')).1
    rw [h1, h2]
  · intro a t1 t2 h1 h2
    rw [h1] at h2
    exact Option.some.inj h2
  · intro tid m a r1 r2 _ h1 h2
    rw [h1] at h2
    exact Option.some.inj h2

/-- Witness for C7: the invariant holds initially and is carried through a
concrete event. -/
theorem identity_stability_witness :
    RegInv (process_event demoState taskStartedT1) :=
  (identity_stability demoState taskStartedT1).2.2.1
    ⟨fun kv h => by simp [demoState, startRunState] at h,
     fun kv h => by simp [demoState, startRunState] at h⟩

/-! ## Replay lemmas: task resolution -/

/-- Every stripped candidate normalises successfully (stripping is
idempotent). -/
theorem cand_normalises (vl : List Value) (c : String)
    (hc : c ∈ vl.filterMap (fun v =>
      match v with
      | Value.str s => if pyStrip s ≠ "" then some (pyStrip s) else none
      | _ => none)) :
    ∃ key, normalise_alias (.str c) = some key := by
  obtain ⟨v, -, hv⟩ := List.mem_filterMap.mp hc
  rcases v with _ | b | n | sv | xs | kvs <;> simp only [] at hv
  · exact Option.noConfusion hv
  · exact Option.noConfusion hv
  · exact Option.noConfusion hv
  · by_cases hs : pyStrip sv ≠ ""
    · rw [if_pos hs] at hv
      obtain rfl := Option.some.inj hv
      refine ⟨pyLower (pyStrip sv), ?_⟩
      simp only [normalise_alias]
      rw [if_pos (pyStrip_pyStrip_ne_empty sv hs)]
      rw [pyStrip_idem]
    · rw [if_neg hs] at hv
      exact Option.noConfusion hv
  · exact Option.noConfusion hv
  · exact Option.noConfusion hv

theorem taskCand_normalises (d : EventData) (c : String)
    (hc : c ∈ taskAliasCandidates d) :
    ∃ key, normalise_alias (.str c) = some key :=
  cand_normalises _ c hc

theorem agentCand_normalises (d : EventData) (c : String)
    (hc : c ∈ agentAliasCandidates d) :
    ∃ key, normalise_alias (.str c) = some key :=
  cand_normalises _ c hc

/-- If the strip-guard mapper rejects a value, so does the normalise
mapper of `normalisedNames` (they share the guard). -/
theorem stripGuard_none (v : Value)
    (h : (match v with
      | Value.str s => if pyStrip s ≠ "" then some (pyStrip s) else none
      | _ => none) = none) :
    (match v with
      | Value.str s => if pyStrip s ≠ "" then normalise_alias (.str s)
        else none
      | _ => none) = none := by
  cases v with
  | str sv =>
      dsimp only at h ⊢
      by_cases hs : pyStrip sv ≠ ""
      · rw [if_pos hs] at h
        exact absurd h (by simp)
      · rw [if_neg hs]
  | null => rfl
  | bool b => rfl
  | num n => rfl
  | arr xs => rfl
  | obj kvs => rfl

theorem scanTasksByName_nil (tasks : List (String × TaskEntry)) :
    scanTasksByName tasks [] = none := by
  apply List.findSome?_eq_none_iff.mpr
  intro kv hkv
  rcases hn : kv.2.name with _ | b | n | sv | xs | kvs
  · rfl
  · rfl
  · rfl
  · dsimp only
    by_cases hs : sv ≠ ""
    · rw [if_pos hs]
      rcases hna : normalise_alias (.str sv) with _ | key
      · rfl
      · simp
    · rw [if_neg hs]
  · rfl
  · rfl

/-- With no candidates and a non-task-scoped kind, task resolution yields
"no task" and the state is untouched. -/
theorem update_task_none (et : String) (d : EventData) (s : RunState)
    (hc : taskAliasCandidates d = [])
    (hts : ¬ strStartsWith et "task:" = true) :
    update_task_registry et d s = (none, none, s) := by
  have hall := List.filterMap_eq_nil_iff.mp hc
  have hfid : firstIdentifierAlias d = none := by
    apply List.findSome?_eq_none_iff.mpr
    intro v hv
    refine hall v ?_
    rcases List.mem_cons.mp hv with rfl | hv1
    · exact List.mem_cons_self _ _
    · rcases List.mem_cons.mp hv1 with rfl | hv2
      · exact List.mem_cons_of_mem _ (List.mem_cons_self _ _)
      · simp at hv2
  have hnames : normalisedNames d = [] := by
    apply List.filterMap_eq_nil_iff.mpr
    intro v hv
    apply stripGuard_none
    refine hall v ?_
    rcases List.mem_cons.mp hv with rfl | hv1
    · simp
    · rcases List.mem_cons.mp hv1 with rfl | hv2
      · simp
      · simp at hv2
  have hscan : scanTasksByName s.task_registry (normalisedNames d) = none := by
    rw [hnames]
    exact scanTasksByName_nil _
  have hres : resolveTaskId et d s = none := by
    have hhit : findAliasHit s.task_alias_map (taskAliasCandidates d)
        = none := by
      rw [hc]; rfl
    simp only [resolveTaskId, hhit, hfid, hscan, hc]
    rw [if_pos ⟨rfl, hts⟩]
    rfl
  simp only [update_task_registry, hres]

/-- Replaying an event whose alias candidates hit the registered alias map
resolves to the registered id and adds no task-registry key. -/
theorem update_task_replay (et : String) (d : EventData) (s : RunState)
    (tid : String)
    (hhit : findAliasHit s.task_alias_map (taskAliasCandidates d) = some tid)
    (hmem : (alookup s.task_registry tid).isSome) :
    (update_task_registry et d s).1 = some tid ∧
    akeys (update_task_registry et d s).2.2.task_registry =
      akeys s.task_registry := by
  have hres : resolveTaskId et d s = some (tid, s.fresh) := by
    simp only [resolveTaskId, hhit]
  simp only [update_task_registry, hres, applyTaskEvent]
  exact ⟨trivial, akeys_ainsert_of_isSome _ _ _ hmem⟩

/-- A non-agent-, non-tool-scoped event leaves the agent registry update
inert (streamlit_app.py:469-470). -/
theorem update_agent_skip (et : String) (d : EventData) (t0 : Option String)
    (s : RunState)
    (h : ¬ (strStartsWith et "agent:" = true ∨
      strStartsWith et "tool:" = true)) :
    update_agent_registry et d t0 s = (none, s) := by
  unfold update_agent_registry
  rw [if_pos h]

theorem attachStage_none (t? : Option TaskEntry) (tid? : Option String)
    (st : RunState) : attachStage none t? tid? st = st := rfl

/-! ## Claim C1: replay idempotence of identity resolution -/

/-- C1 (counterexample to the original universal claim): a task-scoped
event carrying no alias candidate at all synthesises a fresh uuid identity
on each processing (streamlit_app.py:415-418), so replaying the identical
event forks into two TaskEntries instead of resolving to one. -/
theorem replay_fork_counterexample :
    akeys (process_event (process_event demoState taskStartedBare)
        taskStartedBare).task_registry = ["uuid-0", "uuid-1"] ∧
    ¬ (process_event (process_event demoState taskStartedBare)
        taskStartedBare).task_registry.length = 1 := by
  decide

/-- C1 (amended): replay does not fork once an identity is registered —
for any event (of non-agent, non-tool kind) whose alias candidates hit the
task alias map at an id already stored in the registry, processing it adds
no task-registry key and no agent-registry key; and concretely (P1)
replaying the identical `task:started` event with `task_id="T1"` twice
yields exactly the one TaskEntry `"T1"`, whose history has length 2. -/
theorem replay_no_fork (s : RunState) (p : Payload) (tid : String)
    (hhit : findAliasHit s.task_alias_map
      (taskAliasCandidates (p.event.getD [])) = some tid)
    (hmem : (alookup s.task_registry tid).isSome)
    (hsc : ¬ (strStartsWith (p.ptype.getD "event:unknown") "agent:" = true ∨
      strStartsWith (p.ptype.getD "event:unknown") "tool:" = true)) :
    akeys (process_event s p).task_registry = akeys s.task_registry ∧
    akeys (process_event s p).agent_registry = akeys s.agent_registry ∧
    (akeys (process_event (process_event demoState taskStartedT1)
        taskStartedT1).task_registry = ["T1"] ∧
      Option.map (fun t => t.history.length)
        (alookup (process_event (process_event demoState taskStartedT1)
          taskStartedT1).task_registry "T1") = some 2) := by
  refine ⟨?_, ?_, by decide⟩
  · unfold process_event
    split
    · rfl
    · dsimp only
      rw [(finalStage_frame _ _ _ _).1, update_agent_skip _ _ _ _ hsc]
      dsimp only
      rw [attachStage_none]
      exact (update_task_replay _ _ { s with events := s.events ++ [p] }
        tid hhit hmem).2
  · unfold process_event
    split
    · rfl
    · dsimp only
      rw [(finalStage_frame _ _ _ _).2.1, update_agent_skip _ _ _ _ hsc]
      dsimp only
      rw [attachStage_none, (update_task_frame _ _ _).1]

/-- Witness for C1 (amended): replaying `task:started` for `"T1"` against
the state that already processed it keeps the task-registry keys fixed. -/
theorem replay_no_fork_witness :
    akeys (process_event (process_event demoState taskStartedT1)
        taskStartedT1).task_registry =
      akeys (process_event demoState taskStartedT1).task_registry :=
  (replay_no_fork (process_event demoState taskStartedT1) taskStartedT1 "T1"
    (by decide) (by decide) (by decide)).1
